import Mathlib

/-!
Verification of the `mediaserver-client` retry / upload / download / backup engine.

Shallow embedding of `ms_client/client.py`, `ms_client/lib/upload.py`,
`ms_client/lib/download.py`, `ms_client/conf.py` and the package import graph.
Machine-level details (network transport, actual byte streams) are modelled by
explicit data; every control-flow decision of the Python source is reproduced.
-/

namespace MsClient

/-! ## Errors and single-request outcomes

`MediaServerRequestError` (client.py:23) carries a numeric status code; connection
errors are raised with `status_code=0` (client.py:172-176).  A single `request`
attempt either succeeds or raises such an error; for the retry loop of
`MediaServerClient.api` only the error's status code matters, so an attempt
outcome is modelled as `Option MSError` (`none` = success). -/

structure MSError where
  status_code : Nat
deriving DecidableEq, Repr

/-- Result of `MediaServerClient.api` (client.py:228-297), with the number of
`request` attempts that were performed.  `keyError` models the uncaught Python
`KeyError` raised by `self.conf['RETRY_EXCEPT']` when the configuration has no
such key. -/
inductive ApiResult where
  | ok (attempts : Nat)
  | raised (attempts : Nat) (e : MSError)
  | keyError (attempts : Nat)
deriving DecidableEq, Repr

/-- The `while True` retry loop of `MediaServerClient.api` (client.py:240-295).
`retryExcept` is the value of `self.conf['RETRY_EXCEPT']` (`none` = key absent,
so the lookup raises `KeyError`).  `outcomes i` is the outcome of the `i`-th
`request` attempt (1-based).  `remaining` is `max_retry - tried`: the source
raises the last error when `tried > max_retry` (client.py:254). -/
def apiLoop (retryExcept : Option (List Nat)) (outcomes : Nat → Option MSError) :
    Nat → Nat → ApiResult
  | remaining, tried =>
    match outcomes (tried + 1) with
    | none => .ok (tried + 1)
    | some e =>
      match retryExcept with
      | none => .keyError (tried + 1)
      | some s =>
        if e.status_code ∈ s then .raised (tried + 1) e
        else
          match remaining with
          | 0 => .raised (tried + 1) e
          | r + 1 => apiLoop retryExcept outcomes r (tried + 1)

/-- `MediaServerClient.api` (client.py:228-297): with `max_retry = 0` a single
`request` is performed outside the retry loop (client.py:237-238); otherwise the
retry loop runs starting from `tried = 0`. -/
def api (retryExcept : Option (List Nat)) (maxRetry : Nat)
    (outcomes : Nat → Option MSError) : ApiResult :=
  if maxRetry = 0 then
    match outcomes 1 with
    | none => .ok 1
    | some e => .raised 1 e
  else apiLoop retryExcept outcomes maxRetry 0

lemma apiLoop_all_fail (s : List Nat) (outcomes : Nat → Option MSError)
    (es : Nat → MSError) (hall : ∀ i, outcomes i = some (es i))
    (hnot : ∀ i, (es i).status_code ∉ s) :
    ∀ remaining tried, apiLoop (some s) outcomes remaining tried =
      .raised (tried + remaining + 1) (es (tried + remaining + 1)) := by
  intro remaining
  induction remaining with
  | zero =>
    intro tried
    rw [apiLoop, hall (tried + 1)]
    simp [hnot (tried + 1)]
  | succ r ih =>
    intro tried
    rw [apiLoop, hall (tried + 1)]
    simp only [hnot (tried + 1), if_false, if_neg]
    rw [ih (tried + 1), show tried + 1 + r + 1 = tried + (r + 1) + 1 from by ring]

/-- C1: through `MediaServerClient.api` with `max_retry = M ≥ 1`: a first attempt
failing with a status code in the configured never-retry set (`RETRY_EXCEPT`)
gives exactly 1 attempt and raises that error immediately; if every attempt
fails with a status code outside that set (connection failures carry status
code 0 and are included), exactly `M + 1` attempts are performed and the last
error is raised. -/
theorem api_retry_boundary (s : List Nat) (M : Nat) (hM : 1 ≤ M)
    (outcomes : Nat → Option MSError) :
    (∀ e, outcomes 1 = some e → e.status_code ∈ s →
      api (some s) M outcomes = .raised 1 e)
    ∧ (∀ es : Nat → MSError, (∀ i, outcomes i = some (es i)) →
      (∀ i, (es i).status_code ∉ s) →
      api (some s) M outcomes = .raised (M + 1) (es (M + 1))) := by
  constructor
  · intro e h1 hmem
    rw [api, if_neg (by omega), apiLoop, h1]
    simp [hmem]
  · intro es hall hnot
    rw [api, if_neg (by omega), apiLoop_all_fail s outcomes es hall hnot M 0,
      Nat.zero_add]

/-- Witness for `api_retry_boundary` at `M = 2`, `s = [404]`: a run whose first
attempt fails with 404 stops after one attempt, and a run of constant
connection errors (status 0) stops after 3 attempts. -/
theorem api_retry_boundary_witness :
    api (some [404]) 2 (fun _ => some ⟨404⟩) = .raised 1 ⟨404⟩
    ∧ api (some [404]) 2 (fun _ => some ⟨0⟩) = .raised 3 ⟨0⟩ := by
  refine ⟨(api_retry_boundary [404] 2 (by decide) _).1 ⟨404⟩ rfl (by decide), ?_⟩
  exact (api_retry_boundary [404] 2 (by decide) _).2 (fun _ => ⟨0⟩)
    (fun _ => rfl) (fun _ => show (0 : Nat) ∉ [404] by decide)

/-! ## The per-chunk retry loop of `chunked_upload` (upload.py:61-110)

A failed chunk attempt raises a `client.RequestError` whose `response` dict may
carry an `offset` field; `int(err.response.get('offset'))` yields `-1` on
`ValueError`/`TypeError` (upload.py:77-80), modelled by `offsetField.getD (-1)`
over an `Option Int`. -/

structure UploadErr where
  status_code : Nat
  offsetField : Option Int
deriving DecidableEq, Repr

/-- Result of the inner `while True` loop for one chunk, with the number of
attempts performed.  `swallowed` is the `break` at upload.py:84 (offset
mismatch treated as "chunk already received"); `keyError` models the uncaught
`KeyError` from `client.conf['RETRY_EXCEPT']` (upload.py:91) when the
configuration has no such key. -/
inductive ChunkAttemptResult where
  | ok (attempts : Nat)
  | swallowed (attempts : Nat)
  | raised (attempts : Nat) (e : UploadErr)
  | keyError (attempts : Nat)
deriving DecidableEq, Repr

/-- The per-chunk retry loop (upload.py:61-110) from an arbitrary loop state:
`tried` attempts already made, `remaining = max_retry - tried`.  `outcomes i`
is the outcome of the `i`-th attempt for this chunk (1-based, `none` =
success), `endOffset` the chunk's current `end_offset`, `hasUploadId` whether
`'upload_id' in data` (upload.py:81). -/
def chunkAttemptFrom (retryExcept : Option (List Nat))
    (outcomes : Nat → Option UploadErr) (endOffset : Nat) (hasUploadId : Bool) :
    Nat → Nat → ChunkAttemptResult
  | remaining, tried =>
    match outcomes (tried + 1) with
    | none => .ok (tried + 1)
    | some e =>
      if e.status_code = 400 then
        let offset := e.offsetField.getD (-1)
        if tried + 1 > 1 ∧ offset = (endOffset : Int) + 1 ∧ hasUploadId = true then
          .swallowed (tried + 1)
        else .raised (tried + 1) e
      else
        match retryExcept with
        | none => .keyError (tried + 1)
        | some s =>
          if e.status_code ∈ s then .raised (tried + 1) e
          else
            match remaining with
            | 0 => .raised (tried + 1) e
            | r + 1 => chunkAttemptFrom retryExcept outcomes endOffset hasUploadId r (tried + 1)

/-- The per-chunk retry loop started fresh (`tried = 0`, upload.py:61-62). -/
def chunkAttempt (retryExcept : Option (List Nat)) (maxRetry : Nat)
    (outcomes : Nat → Option UploadErr) (endOffset : Nat) (hasUploadId : Bool) :
    ChunkAttemptResult :=
  chunkAttemptFrom retryExcept outcomes endOffset hasUploadId maxRetry 0

/-- C4 counterexample: a chunk attempt that fails with status 403 (a 4xx code
outside the configured `RETRY_EXCEPT` set, and not the offset-mismatch
exception, which requires status 400) IS retried: the loop sleeps, retries, and
the second attempt succeeds after 2 attempts instead of raising the error. -/
theorem chunk_4xx_retried_counterexample :
    chunkAttempt (some []) 10
      (fun t => if t = 1 then some ⟨403, none⟩ else none) 99 false
      = .ok 2
    ∧ ∀ e, chunkAttempt (some []) 10
      (fun t => if t = 1 then some ⟨403, none⟩ else none) 99 false
      ≠ .raised 1 e := by
  constructor
  · rfl
  · intro e h
    simp [chunkAttempt, chunkAttemptFrom] at h

/-- C4 amended: in `chunked_upload`, a chunk attempt that fails with status 400
is not retried and the error is raised, except in exactly one case — the
attempt is not the first for that chunk (`tried > 1`), an upload identifier has
already been obtained, and the error's reported offset equals `end_offset + 1`
— in which case the error is swallowed and the chunk is treated as received.
(Non-400 4xx codes follow the generic path: raised if in `RETRY_EXCEPT`, else
retried, see `chunk_4xx_retried_counterexample`.) -/
theorem chunk_400_no_retry (retryExcept : Option (List Nat))
    (outcomes : Nat → Option UploadErr) (endOffset : Nat) (hasUploadId : Bool)
    (remaining tried : Nat) (e : UploadErr)
    (hout : outcomes (tried + 1) = some e) (h400 : e.status_code = 400) :
    chunkAttemptFrom retryExcept outcomes endOffset hasUploadId remaining tried
      = if 0 < tried ∧ e.offsetField.getD (-1) = (endOffset : Int) + 1
           ∧ hasUploadId = true
        then .swallowed (tried + 1) else .raised (tried + 1) e := by
  rw [chunkAttemptFrom, hout]
  have hc : (tried + 1 > 1 ∧ e.offsetField.getD (-1) = (endOffset : Int) + 1
      ∧ hasUploadId = true)
      ↔ (0 < tried ∧ e.offsetField.getD (-1) = (endOffset : Int) + 1
      ∧ hasUploadId = true) := by
    constructor <;> exact fun h => ⟨by omega, h.2⟩
  simp only [h400, eq_self_iff_true, if_true]
  exact if_congr hc rfl rfl

/-- Witness for `chunk_400_no_retry`: a second attempt failing with 400 and
reported offset 100 = `end_offset + 1` while an upload id is held is swallowed;
a first attempt failing with 400 is raised immediately. -/
theorem chunk_400_no_retry_witness :
    chunkAttemptFrom (some []) (fun _ => some ⟨400, some 100⟩) 99 true 9 1
      = .swallowed 2
    ∧ chunkAttemptFrom (some []) (fun _ => some ⟨400, some 100⟩) 99 false 10 0
      = .raised 1 ⟨400, some 100⟩ := by
  constructor
  · rw [chunk_400_no_retry (some []) _ 99 true 9 1 ⟨400, some 100⟩ rfl rfl]
    norm_num
  · rw [chunk_400_no_retry (some []) _ 99 false 10 0 ⟨400, some 100⟩ rfl rfl]
    norm_num

/-! ## Default configuration (conf.py `BASE_CONF`) -/

/-- The keys defined by `BASE_CONF` in conf.py:4-66.  `load_conf`
(configuration.py:18) starts from a copy of this dict; with no override the
configuration has exactly these keys. -/
def BASE_CONF_keys : List String :=
  ["LOG_LEVEL", "SERVER_URL", "API_KEY", "CLIENT_ID", "LANGUAGE",
   "USE_SESSION", "MAX_RETRY", "RETRY_STATUS_CODES", "RETRY_DELAY_FACTOR",
   "VERIFY_SSL", "TIMEOUT", "PROXIES", "DOWNLOAD_CHUNK_SIZE",
   "UPLOAD_CHUNK_SIZE", "UPLOAD_MAX_FILES"]

/-- C10 counterexample: under the default configuration (no `RETRY_EXCEPT` key,
modelled by `retryExcept = none`), a chunk attempt in `chunked_upload` that
fails with status 400 on its first attempt raises the structured request error,
not `KeyError`: the `status_code == 400` branch (upload.py:76) runs before the
`RETRY_EXCEPT` lookup (upload.py:91), so "any call" is too strong. -/
theorem default_conf_400_not_keyerror_counterexample :
    chunkAttempt none 5 (fun t => if t = 1 then some ⟨400, some 7⟩ else none)
      99 false = .raised 1 ⟨400, some 7⟩
    ∧ chunkAttempt none 5 (fun t => if t = 1 then some ⟨400, some 7⟩ else none)
      99 false ≠ .keyError 1 := by
  exact ⟨rfl, by decide⟩

/-- C10 amended: the default `BASE_CONF` defines `RETRY_STATUS_CODES` but no
`RETRY_EXCEPT` key, and both retry loops read `conf['RETRY_EXCEPT']`; hence
under the default configuration with `max_retry = M ≥ 1`, the first failed
attempt of a `MediaServerClient.api` call raises `KeyError`, and the first
failed chunk attempt of `chunked_upload` raises `KeyError` unless its status
code is 400, which is handled before the lookup (raising the structured error,
or swallowed — impossible on a first attempt). -/
theorem default_conf_retry_keyerror (M : Nat) (hM : 1 ≤ M) :
    ("RETRY_EXCEPT" ∈ BASE_CONF_keys ↔ False)
    ∧ ("RETRY_STATUS_CODES" ∈ BASE_CONF_keys ↔ True)
    ∧ (∀ (outcomes : Nat → Option MSError) e, outcomes 1 = some e →
        api none M outcomes = .keyError 1)
    ∧ (∀ (outcomes : Nat → Option UploadErr) (endOffset : Nat)
        (hasUploadId : Bool) e, outcomes 1 = some e → e.status_code ≠ 400 →
        chunkAttempt none M outcomes endOffset hasUploadId = .keyError 1)
    ∧ (∀ (outcomes : Nat → Option UploadErr) (endOffset : Nat)
        (hasUploadId : Bool) e, outcomes 1 = some e → e.status_code = 400 →
        chunkAttempt none M outcomes endOffset hasUploadId = .raised 1 e) := by
  refine ⟨by decide, by decide, ?_, ?_, ?_⟩
  · intro outcomes e h1
    rw [api, if_neg (by omega), apiLoop, h1]
  · intro outcomes endOffset hasUploadId e h1 hne
    cases M with
    | zero => omega
    | succ m =>
      rw [chunkAttempt, chunkAttemptFrom, h1]
      simp [hne]
  · intro outcomes endOffset hasUploadId e h1 h400
    rw [chunkAttempt,
      chunk_400_no_retry none outcomes endOffset hasUploadId M 0 e h1 h400]
    norm_num

/-- Witness for `default_conf_retry_keyerror` at `M = 3` with concrete failing
attempts (status 500 for the generic loops, 400 for the chunk exception). -/
theorem default_conf_retry_keyerror_witness :
    api none 3 (fun _ => some ⟨500⟩) = .keyError 1
    ∧ chunkAttempt none 3 (fun _ => some ⟨500, none⟩) 10 false = .keyError 1
    ∧ chunkAttempt none 3 (fun _ => some ⟨400, none⟩) 10 false
        = .raised 1 ⟨400, none⟩ := by
  refine ⟨(default_conf_retry_keyerror 3 (by decide)).2.2.1 _ ⟨500⟩ rfl, ?_, ?_⟩
  · exact (default_conf_retry_keyerror 3 (by decide)).2.2.2.1 _ 10 false
      ⟨500, none⟩ rfl (by decide)
  · exact (default_conf_retry_keyerror 3 (by decide)).2.2.2.2 _ 10 false
      ⟨400, none⟩ rfl rfl

/-! ## Package import graph (C9)

Python's `from .utils import bytes_repr` raises `ImportError` iff `bytes_repr`
is not an attribute of the `utils` module.  The module-level names of
`ms_client/lib/utils.py` are its three imports (utils.py:1-3) and its six
functions and two classes (utils.py:6-91). -/

/-- Module-level names defined by `ms_client/lib/utils.py`. -/
def utilsDefinedNames : List String :=
  ["timedelta", "re", "sys", "OBJECT_TYPES", "TTYColors", "_size_repr",
   "format_bits", "format_bytes", "format_time", "format_timedelta",
   "format_item", "format_item_file"]

/-- Names imported from `.utils` by `ms_client/lib/download.py` (line 15). -/
def downloadFromUtilsImports : List String := ["bytes_repr", "item_repr"]

/-- Names imported from `.utils` by `ms_client/lib/upload.py` (line 14). -/
def uploadFromUtilsImports : List String := ["bytes_repr"]

/-- A `from <module> import a, b, ...` statement succeeds iff every imported
name is defined at module level in the source module. -/
def fromImportSucceeds (definedNames importedNames : List String) : Bool :=
  importedNames.all (fun n => definedNames.contains n)

/-- Importing `ms_client.lib.download` succeeds iff its `from .utils import`
statement resolves (download.py:15). -/
def downloadModuleImports : Bool :=
  fromImportSucceeds utilsDefinedNames downloadFromUtilsImports

/-- Importing `ms_client.lib.upload` succeeds iff its `from .utils import`
statement resolves (upload.py:14). -/
def uploadModuleImports : Bool :=
  fromImportSucceeds utilsDefinedNames uploadFromUtilsImports

/-- Importing `ms_client.client` requires importing `ms_client.lib.download`
and `ms_client.lib.upload` (client.py:16-17); its other imports (stdlib,
requests, configuration, content, users_csv) resolve. -/
def clientModuleImports : Bool := downloadModuleImports && uploadModuleImports

/-- Importing the `ms_client` package runs `from .client import
MediaServerClient` (ms_client/__init__.py:3). -/
def msClientPackageImports : Bool := clientModuleImports

/-- C9: importing `ms_client` fails with `ImportError` before any request can
be made — `download.py` and `upload.py` import `bytes_repr` / `item_repr` from
`ms_client/lib/utils.py`, which defines only `format_bytes`, `format_item` and
related helpers; hence every caller-facing engine operation (`chunked_upload`,
`hls_upload`, `download_media_metadata_zip`, `download_media_best_resource`,
`backup_media`, all reached through the client class) is unreachable. -/
theorem ms_client_import_fails :
    msClientPackageImports = false
    ∧ downloadModuleImports = false
    ∧ uploadModuleImports = false
    ∧ "bytes_repr" ∉ utilsDefinedNames
    ∧ "item_repr" ∉ utilsDefinedNames
    ∧ "format_bytes" ∈ utilsDefinedNames
    ∧ "format_item" ∈ utilsDefinedNames := by
  refine ⟨rfl, rfl, rfl, by decide, by decide, by decide, by decide⟩

/-! ## The chunk loop of `chunked_upload` (upload.py:21-142)

The outer loop reads the file `chunk_size` bytes at a time and sends one
request per non-empty read, with a `Content-Range: bytes {start}-{end}/{total}`
header and the accumulated `data` dict (which holds `upload_id` after the first
successful chunk, upload.py:117-118).  The model follows the success path of
each chunk's inner retry loop (the claim's premise); `respUploadId i` is the
`upload_id` field of the `i`-th chunk's response. -/

/-- The values of one `Content-Range: bytes {start}-{end}/{total}` header
(upload.py:59). -/
structure ContentRange where
  startOffset : Nat
  endOffset : Nat
  total : Nat
deriving DecidableEq, Repr

instance : Inhabited ContentRange := ⟨⟨0, 0, 0⟩⟩

/-- One chunk POST request: its 1-based index, its `Content-Range` values and
the `upload_id` field of the `data` dict sent with it (`none` = field absent,
as on the first chunk). -/
structure ChunkRequest where
  chunkIndex : Nat
  range : ContentRange
  uploadId : Option String
deriving DecidableEq, Repr

/-- The `while chunk:` loop of `chunked_upload` (upload.py:55-121).  `pos` is
the file position (the loop continues iff the last `fo.read(chunk_size)` was
non-empty, i.e. `pos < totalSize`, with `chunkSize > 0`); per iteration the
request is emitted, `upload_id` is captured from the response if absent
(upload.py:117-118), `start_offset += chunk_size`,
`end_offset = min(end_offset + chunk_size, total_size - 1)` (upload.py:119-120)
and the next chunk is read.  Returns the request list and the final
`upload_id` entry of `data`. -/
def chunkedUploadLoop (chunkSize totalSize : Nat) (respUploadId : Nat → String)
    (pos startOffset endOffset chunkIndex : Nat) (uploadId : Option String) :
    List ChunkRequest × Option String :=
  if h : pos < totalSize ∧ 0 < chunkSize then
    let req : ChunkRequest := ⟨chunkIndex + 1, ⟨startOffset, endOffset, totalSize⟩, uploadId⟩
    let uploadId' := match uploadId with
      | none => some (respUploadId (chunkIndex + 1))
      | some v => some v
    let rest := chunkedUploadLoop chunkSize totalSize respUploadId
      (pos + min chunkSize (totalSize - pos)) (startOffset + chunkSize)
      (min (endOffset + chunkSize) (totalSize - 1)) (chunkIndex + 1) uploadId'
    (req :: rest.1, rest.2)
  else ([], uploadId)
termination_by totalSize - pos
decreasing_by
  have h1 : 1 ≤ min chunkSize (totalSize - pos) := by
    rcases h with ⟨hp, hc⟩
    omega
  omega

/-- The whole success-path run of `chunked_upload` (upload.py:46-142): chunk
requests, the `upload_id` and `expected_size` fields of the final
`upload/complete/` request's `data` dict (upload.py:127-137), and the value
returned to the caller (`data['upload_id']`, upload.py:142; `none` models the
`KeyError` raised when no chunk was sent). -/
structure UploadRun where
  requests : List ChunkRequest
  completeUploadId : Option String
  completeExpectedSize : Nat
  returnedUploadId : Option String
deriving DecidableEq, Repr

/-- `chunked_upload` for a file of `totalSize` bytes with configured
`UPLOAD_CHUNK_SIZE = chunkSize`: `chunk_index = 0`, `start_offset = 0`,
`end_offset = min(chunk_size, total_size) - 1`, `data = {}` (upload.py:47-50). -/
def chunkedUpload (totalSize chunkSize : Nat) (respUploadId : Nat → String) :
    UploadRun :=
  let r := chunkedUploadLoop chunkSize totalSize respUploadId 0 0
    (min chunkSize totalSize - 1) 0 none
  ⟨r.1, r.2, totalSize, r.2⟩

/-- Closed form of the ranges emitted by the chunk loop: starting at chunk
index `k` with the loop invariants `pos = min (k*C) N`, `start = k*C`,
`end = min ((k+1)*C) N - 1`, the loop emits one request per remaining chunk
`j = k, ..., ceil(N/C) - 1` with range `[j*C, min ((j+1)*C) N - 1]`. -/
lemma chunkedUploadLoop_ranges (C N : Nat) (resp : Nat → String) (hC : 0 < C) :
    ∀ d k uploadId, (N + C - 1) / C - k = d →
    ((chunkedUploadLoop C N resp (min (k * C) N) (k * C)
        (min ((k + 1) * C) N - 1) k uploadId).1).map (·.range)
      = (List.range' k d).map
          (fun j => ⟨j * C, min ((j + 1) * C) N - 1, N⟩) := by
  intro d
  induction d with
  | zero =>
    intro k uploadId hd
    have hceil : N ≤ ((N + C - 1) / C) * C := by
      rcases Nat.eq_zero_or_pos N with hN | hN
      · omega
      · rw [show N + C - 1 = (N - 1) + C from by omega, Nat.add_div_right _ hC,
          Nat.succ_mul]
        have h1 : (N - 1) % C < C := Nat.mod_lt _ hC
        have h2 : (N - 1) % C + (N - 1) / C * C = N - 1 := Nat.mod_add_div' _ _
        generalize (N - 1) / C * C = X at h2 ⊢
        omega
    have hk : N ≤ k * C := by
      have : (N + C - 1) / C ≤ k := by omega
      calc N ≤ ((N + C - 1) / C) * C := hceil
        _ ≤ k * C := Nat.mul_le_mul_right C this
    rw [chunkedUploadLoop.eq_def, dif_neg (by omega)]
    simp
  | succ d ih =>
    intro k uploadId hd
    have hkceil : k < (N + C - 1) / C := by omega
    have hceil1 : ((N + C - 1) / C - 1) * C < N := by
      rcases Nat.eq_zero_or_pos N with hN | hN
      · subst hN
        simp at hkceil
        have : (C - 1) / C = 0 := Nat.div_eq_of_lt (by omega)
        omega
      · rw [show N + C - 1 = (N - 1) + C from by omega, Nat.add_div_right _ hC]
        simp only [Nat.add_sub_cancel]
        calc (N - 1) / C * C ≤ N - 1 := Nat.div_mul_le_self _ _
          _ < N := by omega
    have hkC : k * C < N := by
      have h1 : k ≤ (N + C - 1) / C - 1 := by omega
      calc k * C ≤ ((N + C - 1) / C - 1) * C := Nat.mul_le_mul_right C h1
        _ < N := hceil1
    have hmin : min (k * C) N = k * C := by omega
    rw [chunkedUploadLoop.eq_def, dif_pos (by omega)]
    have e1 : (k + 1) * C = k * C + C := by ring
    have e2 : (k + 1 + 1) * C = k * C + C + C := by ring
    have hpos : min (k * C) N + min C (N - min (k * C) N)
        = min ((k + 1) * C) N := by omega
    have hstart : k * C + C = (k + 1) * C := by omega
    have hend : min (min ((k + 1) * C) N - 1 + C) (N - 1)
        = min ((k + 1 + 1) * C) N - 1 := by omega
    rw [List.map_cons]
    have hrest := ih (k + 1) (match uploadId with
      | none => some (resp (k + 1)) | some v => some v) (by omega)
    rw [show (k + 1) * C = k * C + C from e1] at hrest
    rw [hpos, hstart, hend] at *
    rw [List.range'_succ, List.map_cons]
    refine congrArg₂ _ rfl ?_
    rw [← hrest]

lemma ceil_div_mul_ge (N C : Nat) (hC : 0 < C) (hN : 0 < N) :
    N ≤ ((N + C - 1) / C) * C := by
  rw [show N + C - 1 = (N - 1) + C from by omega, Nat.add_div_right _ hC,
    Nat.succ_mul]
  have h1 : (N - 1) % C < C := Nat.mod_lt _ hC
  have h2 : (N - 1) % C + (N - 1) / C * C = N - 1 := Nat.mod_add_div' _ _
  generalize (N - 1) / C * C = X at h2 ⊢
  omega

lemma ceil_div_pred_mul_lt (N C : Nat) (hC : 0 < C) (hN : 0 < N) :
    ((N + C - 1) / C - 1) * C < N := by
  rw [show N + C - 1 = (N - 1) + C from by omega, Nat.add_div_right _ hC]
  simp only [Nat.add_sub_cancel]
  calc (N - 1) / C * C ≤ N - 1 := Nat.div_mul_le_self _ _
    _ < N := by omega

lemma ceil_div_pos (N C : Nat) (hC : 0 < C) (hN : 0 < N) :
    0 < (N + C - 1) / C :=
  Nat.div_pos (by omega) hC

/-- The ranges sent by `chunked_upload`, in closed form. -/
lemma chunkedUpload_ranges_eq (N C : Nat) (hC : 0 < C) (resp : Nat → String) :
    (chunkedUpload N C resp).requests.map (·.range)
      = (List.range' 0 ((N + C - 1) / C)).map
          (fun j => ⟨j * C, min ((j + 1) * C) N - 1, N⟩) := by
  have key := chunkedUploadLoop_ranges C N resp hC ((N + C - 1) / C) 0 none
    (Nat.sub_zero _)
  simpa only [Nat.zero_mul, Nat.zero_min, Nat.zero_add, Nat.one_mul] using key

/-- C2: for a file of `N ≥ 1` bytes and chunk size `C ≥ 1`, `chunked_upload`
issues exactly `⌈N/C⌉ = (N + C - 1) / C` chunk requests whose `Content-Range`
ranges all have total `N`, start at 0, are contiguous (hence non-overlapping),
satisfy `start ≤ end`, and end at `N - 1`; in particular for `N = 12582912`,
`C = 5242880` exactly 3 chunks with ranges `0-5242879`, `5242880-10485759`,
`10485760-12582911`, all over total `/12582912` (sizes 5242880, 5242880,
2097152). -/
theorem chunked_upload_chunk_coverage (N C : Nat) (hN : 1 ≤ N) (hC : 1 ≤ C)
    (resp : Nat → String) :
    ((chunkedUpload N C resp).requests.map (·.range)).length = (N + C - 1) / C
    ∧ (∀ r ∈ (chunkedUpload N C resp).requests.map (·.range), r.total = N)
    ∧ ((chunkedUpload N C resp).requests.map (·.range)).head?.map
        (·.startOffset) = some 0
    ∧ (∀ (i : Nat) (a b : ContentRange),
        ((chunkedUpload N C resp).requests.map (·.range))[i]? = some a →
        ((chunkedUpload N C resp).requests.map (·.range))[i + 1]? = some b →
        b.startOffset = a.endOffset + 1 ∧ a.endOffset < b.startOffset)
    ∧ (∀ (i : Nat) (a : ContentRange),
        ((chunkedUpload N C resp).requests.map (·.range))[i]? = some a →
        a.startOffset ≤ a.endOffset)
    ∧ ((chunkedUpload N C resp).requests.map (·.range)).getLast?.map
        (·.endOffset) = some (N - 1)
    ∧ (chunkedUpload 12582912 5242880 resp).requests.map (·.range)
        = [⟨0, 5242879, 12582912⟩, ⟨5242880, 10485759, 12582912⟩,
           ⟨10485760, 12582911, 12582912⟩] := by
  have hC0 : 0 < C := hC
  have hN0 : 0 < N := hN
  rw [chunkedUpload_ranges_eq N C hC0 resp]
  have hceil : 0 < (N + C - 1) / C := ceil_div_pos N C hC0 hN0
  have hmulge := ceil_div_mul_ge N C hC0 hN0
  have hmullt := ceil_div_pred_mul_lt N C hC0 hN0
  have hget : ∀ i, i < (N + C - 1) / C →
      ((List.range' 0 ((N + C - 1) / C)).map
        (fun j => (⟨j * C, min ((j + 1) * C) N - 1, N⟩ : ContentRange)))[i]?
      = some ⟨i * C, min ((i + 1) * C) N - 1, N⟩ := by
    intro i hi
    rw [List.getElem?_map, List.getElem?_range' _ _ hi]
    simp
  have hlen : ((List.range' 0 ((N + C - 1) / C)).map
      (fun j => (⟨j * C, min ((j + 1) * C) N - 1, N⟩ : ContentRange))).length
      = (N + C - 1) / C := by
    rw [List.length_map, List.length_range']
  have hjlt : ∀ j, j < (N + C - 1) / C → j * C < N := by
    intro j hj
    have h1 : j ≤ (N + C - 1) / C - 1 := by omega
    calc j * C ≤ ((N + C - 1) / C - 1) * C := Nat.mul_le_mul_right C h1
      _ < N := hmullt
  have hbound : ∀ i a, ((List.range' 0 ((N + C - 1) / C)).map
      (fun j => (⟨j * C, min ((j + 1) * C) N - 1, N⟩ : ContentRange)))[i]?
      = some a → i < (N + C - 1) / C := by
    intro i a ha
    by_contra hcon
    rw [List.getElem?_eq_none (by rw [hlen]; omega)] at ha
    simp at ha
  refine ⟨hlen, ?_, ?_, ?_, ?_, ?_, ?_⟩
  · intro r hr
    simp only [List.mem_map] at hr
    obtain ⟨j, hj, rfl⟩ := hr
    rfl
  · rw [List.head?_eq_getElem?, hget 0 hceil]
    simp
  · intro i a b ha hb
    have hi1 : i + 1 < (N + C - 1) / C := hbound (i + 1) b hb
    have hi : i < (N + C - 1) / C := by omega
    rw [hget i hi] at ha
    rw [hget (i + 1) hi1] at hb
    cases ha
    cases hb
    have h2 : (i + 1) * C < N := hjlt (i + 1) hi1
    have e1 : (i + 1) * C = i * C + C := by ring
    dsimp only
    omega
  · intro i a ha
    have hi : i < (N + C - 1) / C := hbound i a ha
    rw [hget i hi] at ha
    cases ha
    have h2 : i * C < N := hjlt i hi
    have e1 : (i + 1) * C = i * C + C := by ring
    dsimp only
    omega
  · rw [List.getLast?_eq_getElem?, hlen,
      hget ((N + C - 1) / C - 1) (by omega)]
    have e : ((N + C - 1) / C - 1 + 1) * C = ((N + C - 1) / C) * C := by
      congr 1
      omega
    simp only [Option.map_some', e]
    congr 1
    omega
  · rw [chunkedUpload_ranges_eq 12582912 5242880 (by norm_num) resp]
    rfl

/-- Witness for `chunked_upload_chunk_coverage` at the claim's concrete
scenario `N = 12582912`, `C = 5242880`: 3 chunks. -/
theorem chunked_upload_chunk_coverage_witness :
    ((chunkedUpload 12582912 5242880 (fun _ => "")).requests.map
      (·.range)).length = (12582912 + 5242880 - 1) / 5242880
    ∧ ((chunkedUpload 12582912 5242880 (fun _ => "")).requests.map
      (·.range)).getLast?.map (·.endOffset) = some (12582912 - 1) := by
  exact ⟨(chunked_upload_chunk_coverage 12582912 5242880 (by norm_num)
      (by norm_num) (fun _ => "")).1,
    (chunked_upload_chunk_coverage 12582912 5242880 (by norm_num)
      (by norm_num) (fun _ => "")).2.2.2.2.2.1⟩

/-- Once `data` holds `upload_id = v`, every later chunk request carries
`some v` and the final `data` entry is still `some v` (`data['upload_id']` is
only assigned when absent, upload.py:117-118). -/
lemma chunkedUploadLoop_keeps_id (C N : Nat) (resp : Nat → String) (v : String) :
    ∀ fuel pos startOffset endOffset chunkIndex, N - pos ≤ fuel →
      (∀ r ∈ (chunkedUploadLoop C N resp pos startOffset endOffset chunkIndex
          (some v)).1, r.uploadId = some v)
      ∧ (chunkedUploadLoop C N resp pos startOffset endOffset chunkIndex
          (some v)).2 = some v := by
  intro fuel
  induction fuel with
  | zero =>
    intro pos s e i hle
    rw [chunkedUploadLoop.eq_def, dif_neg (by omega)]
    exact ⟨by simp, rfl⟩
  | succ f ih =>
    intro pos s e i hle
    rw [chunkedUploadLoop.eq_def]
    by_cases h : pos < N ∧ 0 < C
    · rw [dif_pos h]
      have hmin : 1 ≤ min C (N - pos) := by
        rcases h with ⟨h1, h2⟩
        omega
      have hrec := ih (pos + min C (N - pos)) (s + C) (min (e + C) (N - 1))
        (i + 1) (by omega)
      refine ⟨?_, hrec.2⟩
      intro r hr
      simp only [List.mem_cons] at hr
      rcases hr with rfl | hr
      · rfl
      · exact hrec.1 r hr
    · rw [dif_neg h]
      exact ⟨by simp, rfl⟩

/-- C3: in a `chunked_upload` run whose chunk requests succeed, the first chunk
request carries no `upload_id`, every subsequent chunk request and the
`upload/complete/` request carry exactly the `upload_id` returned by the first
chunk's response (`resp 1`), and that value is returned to the caller. -/
theorem chunked_upload_id_consistency (N C : Nat) (hN : 1 ≤ N) (hC : 1 ≤ C)
    (resp : Nat → String) :
    ((chunkedUpload N C resp).requests.head?.map (·.uploadId) = some none)
    ∧ (∀ r ∈ (chunkedUpload N C resp).requests.tail,
        r.uploadId = some (resp 1))
    ∧ (chunkedUpload N C resp).completeUploadId = some (resp 1)
    ∧ (chunkedUpload N C resp).returnedUploadId = some (resp 1) := by
  have hkeep := chunkedUploadLoop_keeps_id C N resp (resp 1) N
    (0 + min C (N - 0)) (0 + C) (min (min C N - 1 + C) (N - 1)) (0 + 1)
    (by omega)
  unfold chunkedUpload
  rw [chunkedUploadLoop.eq_def, dif_pos (by omega)]
  exact ⟨rfl, hkeep.1, hkeep.2, hkeep.2⟩

/-- Witness for `chunked_upload_id_consistency` at `N = 3`, `C = 2`,
`resp = fun _ => "uid"`. -/
theorem chunked_upload_id_consistency_witness :
    ((chunkedUpload 3 2 (fun _ => "uid")).requests.head?.map (·.uploadId)
      = some none)
    ∧ (chunkedUpload 3 2 (fun _ => "uid")).returnedUploadId = some "uid" := by
  exact ⟨(chunked_upload_id_consistency 3 2 (by norm_num) (by norm_num)
      (fun _ => "uid")).1,
    (chunked_upload_id_consistency 3 2 (by norm_num) (by norm_num)
      (fun _ => "uid")).2.2.2⟩

/-! ## Python `int()` and `str()` on sizes -/

/-- ASCII decimal digit byte. -/
def isDigitByte (b : Nat) : Bool := 48 ≤ b && b ≤ 57

/-- ASCII whitespace byte (as stripped by Python `int()`). -/
def isSpaceByte (b : Nat) : Bool := b == 32 || b == 9 || b == 10 || b == 13

/-- Value of a list of ASCII digit bytes. -/
def digitsVal (l : List Nat) : Nat := l.foldl (fun acc b => acc * 10 + (b - 48)) 0

/-- Python `int()` on a byte/character string: strip whitespace, optional
sign, decimal digits; anything else raises `ValueError`, modelled as `none`. -/
def pyParseIntBytes (l : List Nat) : Option Int :=
  let t := ((l.dropWhile isSpaceByte).reverse.dropWhile isSpaceByte).reverse
  match t with
  | [] => none
  | b :: rest =>
    if b = 45 then
      if rest ≠ [] ∧ rest.all isDigitByte then some (-(digitsVal rest : Int))
      else none
    else if b = 43 then
      if rest ≠ [] ∧ rest.all isDigitByte then some ((digitsVal rest : Int))
      else none
    else if (b :: rest).all isDigitByte then some ((digitsVal (b :: rest) : Int))
    else none

/-- Decimal ASCII bytes of `n` (Python `str(n)` / `str(n).encode()`); the fuel
argument makes the recursion structural (`n / 10 < fuel` is preserved). -/
def natDigitsAux : Nat → Nat → List Nat
  | 0, _ => []
  | fuel + 1, n =>
    if n < 10 then [48 + n] else natDigitsAux fuel (n / 10) ++ [48 + n % 10]

/-- Decimal ASCII bytes of `n`. -/
def natDigits (n : Nat) : List Nat := natDigitsAux (n + 1) n

lemma digitsVal_append (l : List Nat) (b : Nat) :
    digitsVal (l ++ [b]) = digitsVal l * 10 + (b - 48) := by
  unfold digitsVal
  rw [List.foldl_append]
  rfl

lemma natDigitsAux_spec : ∀ fuel n, n < fuel →
    natDigitsAux fuel n ≠ []
    ∧ (∀ b ∈ natDigitsAux fuel n, 48 ≤ b ∧ b ≤ 57)
    ∧ digitsVal (natDigitsAux fuel n) = n := by
  intro fuel
  induction fuel with
  | zero => intro n hn; omega
  | succ f ih =>
    intro n hn
    rw [natDigitsAux]
    by_cases h : n < 10
    · rw [if_pos h]
      refine ⟨by simp, ?_, ?_⟩
      · intro b hb
        simp only [List.mem_singleton] at hb
        omega
      · show digitsVal [48 + n] = n
        unfold digitsVal
        simp
    · rw [if_neg h]
      have hd : n / 10 < f := by omega
      obtain ⟨h1, h2, h3⟩ := ih (n / 10) hd
      refine ⟨by simp [h1], ?_, ?_⟩
      · intro b hb
        rw [List.mem_append] at hb
        rcases hb with hb | hb
        · exact h2 b hb
        · simp only [List.mem_singleton] at hb
          omega
      · rw [digitsVal_append, h3]
        omega

lemma dropWhile_space_of_digits (l : List Nat)
    (hall : ∀ b ∈ l, 48 ≤ b ∧ b ≤ 57) : l.dropWhile isSpaceByte = l := by
  cases l with
  | nil => rfl
  | cons a t =>
    rw [List.dropWhile_cons]
    have ha := hall a (by simp)
    have : isSpaceByte a = false := by
      unfold isSpaceByte
      simp only [Bool.or_eq_false_iff, beq_eq_false_iff_ne]
      omega
    rw [this]
    simp

/-- `int(str(n)) = n`: the size markers written by `backup_media` parse back. -/
lemma pyParseIntBytes_natDigits (n : Nat) :
    pyParseIntBytes (natDigits n) = some (n : Int) := by
  obtain ⟨h1, h2, h3⟩ := natDigitsAux_spec (n + 1) n (by omega)
  unfold pyParseIntBytes natDigits
  have hrev : ∀ b ∈ (natDigitsAux (n + 1) n).reverse, 48 ≤ b ∧ b ≤ 57 := by
    intro b hb
    exact h2 b (List.mem_reverse.mp hb)
  rw [dropWhile_space_of_digits _ h2, dropWhile_space_of_digits _ hrev,
    List.reverse_reverse]
  cases hcase : natDigitsAux (n + 1) n with
  | nil => exact absurd hcase h1
  | cons b rest =>
    have hb := h2 b (by rw [hcase]; simp)
    rw [hcase] at h3
    dsimp only
    rw [if_neg (by omega), if_neg (by omega), if_pos ?_]
    · rw [h3]
    · rw [List.all_eq_true]
      intro x hx
      have := h2 x (by rw [hcase]; exact hx)
      unfold isDigitByte
      simp only [Bool.and_eq_true, decide_eq_true_eq]
      omega

/-! ## The Content-Length size probe (download.py:80-91 and 194-204)

```python
try:
    size = int(req.headers.get('Content-Length'))
    assert size > 0
except (ValueError, TypeError, AssertionError) as err:
    logger.warning('Failed to get expected size of %s: %s', ...)
if current_size == size:
    return None
```
A missing header makes `int(None)` raise `TypeError`, an unparsable one raises
`ValueError` — in both cases *before* `size` is assigned; the exception is
caught (only a warning is logged) and `if current_size == size:` then raises
`UnboundLocalError` (a `NameError`).  A parsed `size ≤ 0` fails only the
`assert` (also caught) with `size` bound, so the comparison proceeds. -/

inductive SizeCheck where
  | skip
  | download
  | nameError
deriving DecidableEq, Repr

/-- The size-probe comparison step shared by `download_media_metadata_zip` and
`download_media_best_resource`, reached only when `current_size` is nonzero.
`contentLength` is the raw `Content-Length` header (`none` = header absent). -/
def sizeCheckStep (currentSize : Int) (contentLength : Option (List Nat)) :
    SizeCheck :=
  match contentLength.bind pyParseIntBytes with
  | none => .nameError
  | some size => if currentSize = size then .skip else .download

/-! ## Best-resource selection (download.py:141-178) -/

/-- One entry of the `medias/resources-list/` response. -/
structure Resource where
  file_size : Nat
  format : String
  used_for_display : Bool
  file : String
  path : String
  width : Nat
  height : Nat
deriving DecidableEq, Repr

/-- The predicate of the selection loop (download.py:149):
`res['format'] != 'm3u8' and (not should_be_playable or res['used_for_display'])`. -/
def eligibleResource (shouldBePlayable : Bool) (res : Resource) : Bool :=
  res.format != "m3u8" && (!shouldBePlayable || res.used_for_display)

/-- `resources.sort(key=lambda a: -a['file_size'])` followed by the first
eligible entry (download.py:146-151).  Python's sort is stable;
`List.insertionSort` with the same non-strict comparison on the key
`-file_size` is the same stable sort. -/
def selectBestQuality (shouldBePlayable : Bool) (resources : List Resource) :
    Option Resource :=
  (List.insertionSort
    (fun a b => -(a.file_size : Int) ≤ -(b.file_size : Int)) resources).find?
    (eligibleResource shouldBePlayable)

/-- What `download_media_best_resource` does with the selection
(download.py:152-178): no eligible entry raises `RuntimeError`
(`noneSelected`); a `youtube`/`embed` variant has its `file` reference written
as a text pointer file (`pointer`); anything else is streamed (`binary`). -/
inductive ResourceChoice where
  | noneSelected
  | pointer (res : Resource)
  | binary (res : Resource)
deriving DecidableEq, Repr

def chooseResource (shouldBePlayable : Bool) (resources : List Resource) :
    ResourceChoice :=
  match selectBestQuality shouldBePlayable resources with
  | none => .noneSelected
  | some best =>
    if best.format = "youtube" ∨ best.format = "embed" then .pointer best
    else .binary best

/-- C6 counterexample: with a 100-byte `youtube` variant and a 50-byte `mp4`
variant, the code selects the `youtube` variant (writing a pointer file) even
though an eligible non-embed variant exists — embed/youtube formats are not
excluded from selection; only `m3u8` is (download.py:149). -/
theorem best_resource_embed_counterexample :
    chooseResource false
      [⟨100, "youtube", true, "dQw4", "", 0, 0⟩,
       ⟨50, "mp4", true, "f.mp4", "/r/f.mp4", 640, 360⟩]
      = .pointer ⟨100, "youtube", true, "dQw4", "", 0, 0⟩
    ∧ eligibleResource false ⟨50, "mp4", true, "f.mp4", "/r/f.mp4", 640, 360⟩
      = true
    ∧ (⟨50, "mp4", true, "f.mp4", "/r/f.mp4", 640, 360⟩ : Resource).format
      ∉ (["m3u8", "youtube", "embed"] : List String) := by
  refine ⟨by decide, by decide, by decide⟩

lemma find?_desc_max (p : Resource → Bool) :
    ∀ l : List Resource,
    l.Pairwise (fun a b => b.file_size ≤ a.file_size) →
    ∀ best, l.find? p = some best →
    ∀ r ∈ l, p r = true → r.file_size ≤ best.file_size := by
  intro l
  induction l with
  | nil => intro _ best h; simp at h
  | cons x xs ih =>
    intro hpw best hfind r hr hp
    rw [List.pairwise_cons] at hpw
    by_cases hx : p x
    · rw [List.find?_cons_of_pos _ hx] at hfind
      cases hfind
      rcases List.mem_cons.mp hr with rfl | hr
      · exact le_refl _
      · exact hpw.1 r hr
    · rw [List.find?_cons_of_neg _ (by simpa using hx)] at hfind
      rcases List.mem_cons.mp hr with rfl | hr
      · exact absurd hp (by simpa using hx)
      · exact ih hpw.2 best hfind r hr hp

/-- C6 amended: `download_media_best_resource` selects the single
highest-`file_size` variant among those that are not `m3u8` (and, when
`should_be_playable`, are flagged `used_for_display`); embed/youtube variants
are *not* excluded from selection but compete by size, and when the selected
variant is `youtube`/`embed` its reference is written as a one-line text
pointer file instead of streaming a binary body; when no eligible variant
exists (in particular when `should_be_playable` is true and no non-m3u8
variant is flagged `used_for_display`), a `RuntimeError` is raised instead of
falling back. -/
theorem best_resource_selection (shouldBePlayable : Bool)
    (resources : List Resource) :
    (∀ best, selectBestQuality shouldBePlayable resources = some best →
      best ∈ resources ∧ eligibleResource shouldBePlayable best = true
      ∧ (∀ r ∈ resources, eligibleResource shouldBePlayable r = true →
          r.file_size ≤ best.file_size)
      ∧ chooseResource shouldBePlayable resources
          = (if best.format = "youtube" ∨ best.format = "embed"
             then .pointer best else .binary best))
    ∧ (selectBestQuality shouldBePlayable resources = none ↔
        ∀ r ∈ resources, eligibleResource shouldBePlayable r = false)
    ∧ (selectBestQuality shouldBePlayable resources = none →
        chooseResource shouldBePlayable resources = .noneSelected) := by
  haveI htot : IsTotal Resource
      (fun a b => -(a.file_size : Int) ≤ -(b.file_size : Int)) :=
    ⟨fun a b => le_total _ _⟩
  haveI htrans : IsTrans Resource
      (fun a b => -(a.file_size : Int) ≤ -(b.file_size : Int)) :=
    ⟨fun a b c h1 h2 => le_trans h1 h2⟩
  have hperm := List.perm_insertionSort
    (fun a b => -(a.file_size : Int) ≤ -(b.file_size : Int)) resources
  have hsorted := List.sorted_insertionSort
    (fun a b => -(a.file_size : Int) ≤ -(b.file_size : Int)) resources
  have hpw : (List.insertionSort
      (fun a b => -(a.file_size : Int) ≤ -(b.file_size : Int))
      resources).Pairwise (fun a b => b.file_size ≤ a.file_size) := by
    refine hsorted.imp ?_
    intro a b h
    have := neg_le_neg_iff.mp h
    exact_mod_cast this
  refine ⟨?_, ?_, ?_⟩
  · intro best hfind
    refine ⟨?_, ?_, ?_, ?_⟩
    · exact hperm.mem_iff.mp (List.mem_of_find?_eq_some hfind)
    · exact List.find?_some hfind
    · intro r hr hp
      exact find?_desc_max _ _ hpw best hfind r (hperm.mem_iff.mpr hr) hp
    · rw [chooseResource, hfind]
  · unfold selectBestQuality
    rw [List.find?_eq_none]
    constructor
    · intro h r hr
      have := h r (hperm.mem_iff.mpr hr)
      simpa using this
    · intro h r hr
      have := h r (hperm.mem_iff.mp hr)
      simp [this]
  · intro h
    rw [chooseResource, h]

/-- Witness for `best_resource_selection`: a single eligible `mp4` variant is
selected and streamed as a binary body. -/
theorem best_resource_selection_witness :
    chooseResource false [⟨50, "mp4", true, "f.mp4", "/r/f.mp4", 640, 360⟩]
      = .binary ⟨50, "mp4", true, "f.mp4", "/r/f.mp4", 640, 360⟩ := by
  have h := (best_resource_selection false
    [⟨50, "mp4", true, "f.mp4", "/r/f.mp4", 640, 360⟩]).1
    ⟨50, "mp4", true, "f.mp4", "/r/f.mp4", 640, 360⟩ (by decide)
  rw [h.2.2.2, if_neg (by decide)]

/-! ## Filesystem, zip archives and the remote server -/

structure ZipEntry where
  name : String
  data : List Nat
  crcOk : Bool
deriving DecidableEq, Repr

structure ZipArchive where
  entries : List ZipEntry
deriving DecidableEq, Repr

/-- On-disk byte size of a zip container: a fixed 30-byte local header per
entry plus name and data bytes (as in the zip format).  Only determinism and
positivity on non-empty archives matter for the claims. -/
def zipSize (z : ZipArchive) : Nat :=
  (z.entries.map (fun e => 30 + e.name.data.length + e.data.length)).sum

/-- `zipfile.ZipFile.testzip()`: the name of the first corrupt entry. -/
def testzip (z : ZipArchive) : Option String :=
  (z.entries.find? (fun e => !e.crcOk)).map (fun e => e.name)

/-- A file on disk: raw bytes or a zip container. -/
inductive FileData where
  | bytes (content : List Nat)
  | zip (z : ZipArchive)
deriving DecidableEq, Repr

/-- A file's `stat().st_size`. -/
def FileData.size : FileData → Nat
  | .bytes content => content.length
  | .zip z => zipSize z

/-- Local filesystem: file name → content.  One flat directory
(`backup_media` modelled with `replicate_tree=False`). -/
def FS := String → Option FileData

def fsUpdate (fs : FS) (p : String) (d : Option FileData) : FS :=
  fun q => if q = p then d else fs q

/-- `p` is a character-wise prefix of `s` (Python `str.startswith`). -/
def strIsPref (p s : String) : Bool := p.data.isPrefixOf s.data

/-- Python `str.removeprefix`. -/
def strRemovePref (s p : String) : String :=
  if strIsPref p s then ⟨s.data.drop p.data.length⟩ else s

/-- The remote MediaServer state seen by a run: an unchanged remote serves
fixed content.  The two `Content-Length` fields are raw header values
(`none` = header absent). -/
structure Remote where
  channels : List String
  metaZip : ZipArchive
  metaHead : Option (List Nat)
  resources : List Resource
  resourceBytes : List Nat
  resHead : Option (List Nat)

/-- Exceptions raised by the modelled download/backup operations. -/
inductive BErr where
  | requestError (callIdx : Nat)
  | nameError
  | zipError (name : String)
  | badArchive
  | valueError
  | noResource
  | shouldHaveDownloaded
deriving DecidableEq, Repr

/-- Outcome of a modelled operation: final filesystem, next network-call
index, and the returned value or the raised exception. -/
structure StepOut (α : Type) where
  fs : FS
  calls : Nat
  result : Except BErr α

/-- `download_media_metadata_zip` (download.py:26-114) as called with an
explicit integer `current_size` (as `backup_media` does, resolving the
`current_size is None` stat branch at the call site).  `fail k` says whether
the `k`-th network call raises a connection/server error out of `client.api`;
`calls` is the index of the next call.  Writes `{filePref}.zip`; after a body
download the zip is integrity-checked (download.py:110-113). -/
def downloadMetaZip (remote : Remote) (fail : Nat → Bool)
    (oid filePref : String) (currentSize : Int) (fs : FS) (calls : Nat) :
    StepOut (Option String) :=
  if oid = "" then ⟨fs, calls, .error .valueError⟩
  else
    let path := filePref ++ ".zip"
    let get : Nat → StepOut (Option String) := fun c =>
      if fail c then ⟨fs, c + 1, .error (.requestError c)⟩
      else
        let fs2 := fsUpdate fs path (some (.zip remote.metaZip))
        match testzip remote.metaZip with
        | some name => ⟨fs2, c + 1, .error (.zipError name)⟩
        | none => ⟨fs2, c + 1, .ok (some path)⟩
    if currentSize ≠ 0 then
      if fail calls then ⟨fs, calls + 1, .error (.requestError calls)⟩
      else
        match sizeCheckStep currentSize remote.metaHead with
        | .nameError => ⟨fs, calls + 1, .error .nameError⟩
        | .skip => ⟨fs, calls + 1, .ok none⟩
        | .download => get (calls + 1)
    else get calls

/-- The local file name used by `download_media_best_resource`
(download.py:161). -/
def resPathName (filePref : String) (best : Resource) : String :=
  filePref ++ ("-" ++ toString best.width ++ "x" ++ toString best.height
    ++ "." ++ best.format)

/-- `download_media_best_resource` (download.py:117-223) with an explicit
integer `current_size`.  Network calls in order: `medias/resources-list/`,
then for a non-embed variant `download/` (redirect URL), the optional HEAD
probe, and the streamed GET.  Writes
`{filePref}-{width}x{height}.{format}`. -/
def downloadBestResource (remote : Remote) (fail : Nat → Bool)
    (oid filePref : String) (currentSize : Int) (shouldBePlayable : Bool)
    (fs : FS) (calls : Nat) : StepOut (Option String) :=
  if oid = "" then ⟨fs, calls, .error .valueError⟩
  else if oid.data.head? ≠ some 'v' then ⟨fs, calls, .ok none⟩
  else if fail calls then ⟨fs, calls + 1, .error (.requestError calls)⟩
  else if remote.resources = [] then ⟨fs, calls + 1, .ok none⟩
  else
    match selectBestQuality shouldBePlayable remote.resources with
    | none => ⟨fs, calls + 1, .error .noResource⟩
    | some best =>
      let path := resPathName filePref best
      if best.format = "youtube" ∨ best.format = "embed" then
        let data := best.file.data.map Char.toNat
        if currentSize ≠ 0 ∧ currentSize = (data.length : Int) then
          ⟨fs, calls + 1, .ok none⟩
        else ⟨fsUpdate fs path (some (.bytes data)), calls + 1, .ok (some path)⟩
      else
        if fail (calls + 1) then ⟨fs, calls + 2, .error (.requestError (calls + 1))⟩
        else
          let get : Nat → StepOut (Option String) := fun c =>
            if fail c then ⟨fs, c + 1, .error (.requestError c)⟩
            else ⟨fsUpdate fs path (some (.bytes remote.resourceBytes)), c + 1,
              .ok (some path)⟩
          if currentSize ≠ 0 then
            if fail (calls + 2) then ⟨fs, calls + 3, .error (.requestError (calls + 2))⟩
            else
              match sizeCheckStep currentSize remote.resHead with
              | .nameError => ⟨fs, calls + 3, .error .nameError⟩
              | .skip => ⟨fs, calls + 3, .ok none⟩
              | .download => get (calls + 3)
          else get (calls + 2)

/-- The marker scan of `backup_media` over an existing archive
(download.py:250-258): recovers the recorded metadata size (Python `int` of
the `metadata-size.txt` entry; parse failure raises `ValueError`) and the
`file_size` (= uncompressed data length) of the last `resource-*` entry. -/
def readMarkersStep (acc : Int × Nat) (e : ZipEntry) :
    Except BErr (Int × Nat) :=
  if e.name = "metadata-size.txt" then
    match pyParseIntBytes e.data with
    | none => .error .valueError
    | some n => .ok (n, acc.2)
  else if strIsPref "resource-" e.name then .ok (acc.1, e.data.length)
  else .ok acc

def readMarkers (z : ZipArchive) : Except BErr (Int × Nat) :=
  z.entries.foldlM readMarkersStep ((0 : Int), (0 : Nat))

/-- `backup_media` (download.py:226-326) with `replicate_tree=False`.
`filePref` is `get_prefix(media_item)` (download.py:22-23), a model parameter
because `get_prefix` goes through the external `unidecode` package; it always
ends in `' - ' + oid`, so it never starts with the `tmp-{oid}` prefix —
theorems take that as an explicit hypothesis.  Network call 0 is
`channels/path/`. -/
def backupMedia (remote : Remote) (fail : Nat → Bool) (oid filePref : String)
    (shouldBePlayable : Bool) (fs : FS) : StepOut String :=
  if oid = "" then ⟨fs, 0, .error .valueError⟩
  else if fail 0 then ⟨fs, 1, .error (.requestError 0)⟩
  else
    let mediaChanPath := remote.channels.map (fun t => t.replace "/" "|")
    let zipPath := filePref ++ ".zip"
    let tmpPref := "tmp-" ++ oid
    let inspect : Except BErr (Int × Nat) :=
      match fs zipPath with
      | none => .ok (0, 0)
      | some (.bytes _) => .error .badArchive
      | some (.zip z) => readMarkers z
    match inspect with
    | .error e => ⟨fs, 1, .error e⟩
    | .ok (metadataZipSize, bestResourceSize) =>
      let m := downloadMetaZip remote fail oid tmpPref metadataZipSize fs 1
      match m.result with
      | .error e => ⟨m.fs, m.calls, .error e⟩
      | .ok metaPath? =>
        let r := downloadBestResource remote fail oid tmpPref
          (if metaPath?.isSome then 0 else (bestResourceSize : Int))
          shouldBePlayable m.fs m.calls
        match r.result with
        | .error e => ⟨r.fs, r.calls, .error e⟩
        | .ok resPath? =>
          let m2 := if resPath?.isSome ∧ metaPath? = none then
              downloadMetaZip remote fail oid tmpPref 0 r.fs r.calls
            else ⟨r.fs, r.calls, .ok metaPath?⟩
          match m2.result with
          | .error e => ⟨m2.fs, m2.calls, .error e⟩
          | .ok metaPath2? =>
            if resPath?.isSome ∨ metaPath2?.isSome then
              match metaPath2? with
              | none => ⟨m2.fs, m2.calls, .error .shouldHaveDownloaded⟩
              | some metaPath =>
                match m2.fs metaPath with
                | some (.zip z) =>
                  let resContent? : Except BErr (Option (String × List Nat)) :=
                    match resPath? with
                    | none => .ok none
                    | some resPath =>
                      match m2.fs resPath with
                      | some (.bytes content) => .ok (some (resPath, content))
                      | _ => .error .badArchive
                  match resContent? with
                  | .error e => ⟨m2.fs, m2.calls, .error e⟩
                  | .ok resPair? =>
                    let metadataSize := zipSize z
                    let entries2 := z.entries ++
                      [⟨"metadata-size.txt", natDigits metadataSize, true⟩,
                       ⟨"metadata-path.txt",
                        (String.intercalate "/" mediaChanPath).data.map
                          Char.toNat, true⟩] ++
                      (match resPair? with
                       | some (resPath, content) =>
                         [⟨"resource" ++ strRemovePref resPath tmpPref,
                           content, true⟩]
                       | none => [])
                    let z2 : ZipArchive := ⟨entries2⟩
                    let fs2 := fsUpdate m2.fs metaPath (some (.zip z2))
                    match testzip z2 with
                    | some name => ⟨fs2, m2.calls, .error (.zipError name)⟩
                    | none =>
                      let fs3 := fsUpdate (fsUpdate fs2 zipPath
                        (some (.zip z2))) metaPath none
                      let fs4 := match resPair? with
                        | some (resPath, _) => fsUpdate fs3 resPath none
                        | none => fs3
                      ⟨fs4, m2.calls, .ok zipPath⟩
                | _ => ⟨m2.fs, m2.calls, .error .badArchive⟩
            else ⟨m2.fs, m2.calls, .ok zipPath⟩

lemma fsUpdate_ne {q p : String} (fs : FS) (d : Option FileData) (h : q ≠ p) :
    fsUpdate fs p d q = fs q := by
  unfold fsUpdate
  rw [if_neg h]

lemma strIsPref_append (p s : String) : strIsPref p (p ++ s) = true := by
  unfold strIsPref
  rw [String.data_append]
  exact List.isPrefixOf_iff_prefix.mpr (List.prefix_append _ _)

lemma ne_of_not_pref {p q : String} (h : strIsPref p q = false) (s : String) :
    q ≠ p ++ s := by
  intro he
  rw [he, strIsPref_append] at h
  exact Bool.noConfusion h

/-- `download_media_metadata_zip` touches no file other than
`{filePref}.zip`. -/
lemma downloadMetaZip_fs_pres (remote : Remote) (fail : Nat → Bool)
    (oid filePref : String) (currentSize : Int) (fs : FS) (calls : Nat)
    (q : String) (hq : q ≠ filePref ++ ".zip") :
    (downloadMetaZip remote fail oid filePref currentSize fs calls).fs q
      = fs q := by
  unfold downloadMetaZip
  dsimp only
  repeat' split
  all_goals first
    | rfl
    | exact fsUpdate_ne fs _ hq

/-- `download_media_metadata_zip` only returns `none` (skip) or the path
`{filePref}.zip` it wrote. -/
lemma downloadMetaZip_result (remote : Remote) (fail : Nat → Bool)
    (oid filePref : String) (currentSize : Int) (fs : FS) (calls : Nat) :
    ∀ p, (downloadMetaZip remote fail oid filePref currentSize fs calls).result
      = .ok (some p) → p = filePref ++ ".zip" := by
  intro p hp
  unfold downloadMetaZip at hp
  dsimp only at hp
  repeat' split at hp
  all_goals simp_all

/-- `download_media_best_resource` touches no file outside the
`{filePref}-...` namespace. -/
lemma downloadBestResource_fs_pres (remote : Remote) (fail : Nat → Bool)
    (oid filePref : String) (currentSize : Int) (shouldBePlayable : Bool)
    (fs : FS) (calls : Nat) (q : String)
    (hq : strIsPref filePref q = false) :
    (downloadBestResource remote fail oid filePref currentSize shouldBePlayable
      fs calls).fs q = fs q := by
  unfold downloadBestResource
  dsimp only
  repeat' split
  all_goals first
    | rfl
    | exact fsUpdate_ne fs _ (ne_of_not_pref hq _)

/-- `download_media_best_resource` only returns `none` (skip / not a video /
no resources) or a path under `{filePref}-`. -/
lemma downloadBestResource_result (remote : Remote) (fail : Nat → Bool)
    (oid filePref : String) (currentSize : Int) (shouldBePlayable : Bool)
    (fs : FS) (calls : Nat) :
    ∀ p, (downloadBestResource remote fail oid filePref currentSize
      shouldBePlayable fs calls).result = .ok (some p) →
      ∃ s, p = filePref ++ s := by
  intro p hp
  unfold downloadBestResource at hp
  dsimp only at hp
  repeat' split at hp
  all_goals simp_all
  all_goals exact ⟨_, hp.symm⟩

/-- C5 (code bug): in `download_media_metadata_zip` and
`download_media_best_resource`, when a nonzero local size (here 100) is known
and the HEAD probe's `Content-Length` header is missing (`none`) or unparsable
(`"abc"`), the caught `TypeError`/`ValueError` leaves the local variable
`size` unassigned and the following `if current_size == size:` raises
`UnboundLocalError` — the operation does NOT proceed with the full body
download as the spec states; the download is skipped only when the parsed
remote size equals the local size. -/
theorem download_size_probe_name_error :
    sizeCheckStep 100 none = .nameError
    ∧ sizeCheckStep 100 (some [97, 98, 99]) = .nameError
    ∧ sizeCheckStep 100 (some (natDigits 100)) = .skip
    ∧ sizeCheckStep 100 (some (natDigits 200)) = .download
    ∧ (downloadMetaZip ⟨[], ⟨[]⟩, none, [], [], none⟩ (fun _ => false)
        "v1" "meta" 100 (fun _ => none) 0).result = .error .nameError
    ∧ (downloadBestResource ⟨[], ⟨[]⟩, none,
        [⟨50, "mp4", true, "f", "/f", 640, 360⟩], [5, 6], none⟩
        (fun _ => false) "v1" "res" 100 false (fun _ => none) 0).result
        = .error .nameError := by
  exact ⟨by decide, by decide, by decide, by decide, rfl, rfl⟩

lemma fsUpdate_self (fs : FS) (p : String) (d : Option FileData) :
    fsUpdate fs p d p = d := by
  unfold fsUpdate
  rw [if_pos rfl]

lemma backupMedia_outcome (remote : Remote) (fail : Nat → Bool)
    (oid filePref : String) (shouldBePlayable : Bool) (fs : FS)
    (hpref : strIsPref ("tmp-" ++ oid) (filePref ++ ".zip") = false) :
    (backupMedia remote fail oid filePref shouldBePlayable fs).fs
        (filePref ++ ".zip") = fs (filePref ++ ".zip")
    ∨ ((backupMedia remote fail oid filePref shouldBePlayable fs).result
        = .ok (filePref ++ ".zip")
      ∧ ∃ z2, (backupMedia remote fail oid filePref shouldBePlayable fs).fs
          (filePref ++ ".zip") = some (.zip z2) ∧ testzip z2 = none) := by
  have hne1 : filePref ++ ".zip" ≠ ("tmp-" ++ oid) ++ ".zip" :=
    ne_of_not_pref hpref ".zip"
  unfold backupMedia
  dsimp only
  split
  next => exact Or.inl rfl
  next h0 =>
  split
  next => exact Or.inl rfl
  next hf0 =>
  split
  next e heqI => exact Or.inl rfl
  next ms bs heqI =>
  set M := downloadMetaZip remote fail oid ("tmp-" ++ oid) ms fs 1 with hM
  have hMfs : M.fs (filePref ++ ".zip") = fs (filePref ++ ".zip") := by
    rw [hM]
    exact downloadMetaZip_fs_pres _ _ _ _ _ _ _ _ hne1
  split
  next e heqm => exact Or.inl hMfs
  next metaP heqm =>
  set R := downloadBestResource remote fail oid ("tmp-" ++ oid)
    (if metaP.isSome = true then 0 else (bs : Int)) shouldBePlayable
    M.fs M.calls with hR
  have hRfs : R.fs (filePref ++ ".zip") = M.fs (filePref ++ ".zip") := by
    rw [hR]
    exact downloadBestResource_fs_pres _ _ _ _ _ _ _ _ _ hpref
  split
  next e heqr => exact Or.inl (by rw [hRfs, hMfs])
  next resP heqr =>
  split
  next e heqm2 =>
    refine Or.inl ?_
    split at heqm2
    next hcond =>
      dsimp only
      rw [if_pos hcond]
      rw [downloadMetaZip_fs_pres _ _ _ _ _ _ _ _ hne1, hRfs, hMfs]
    next hcond =>
      dsimp only
      rw [if_neg hcond]
      dsimp only
      rw [hRfs, hMfs]
  next metaP2 heqm2 =>
  split at heqm2
  next hcond =>
    simp only [if_pos hcond]
    set M2 := downloadMetaZip remote fail oid ("tmp-" ++ oid) 0 R.fs R.calls
      with hM2
    have hM2fs : M2.fs (filePref ++ ".zip") = R.fs (filePref ++ ".zip") := by
      rw [hM2]
      exact downloadMetaZip_fs_pres _ _ _ _ _ _ _ _ hne1
    split
    next hsome =>
      split
      next hm2n =>
        exact Or.inl (by rw [hM2fs, hRfs, hMfs])
      next metaPath =>
        have heqm2b := heqm2
        rw [hM2] at heqm2b
        have hmp : metaPath = ("tmp-" ++ oid) ++ ".zip" :=
          downloadMetaZip_result _ _ _ _ _ _ _ _ heqm2b
        have hzp_mp : filePref ++ ".zip" ≠ metaPath := by
          rw [hmp]
          exact hne1
        split
        next z heqz =>
          split
          next e heqRC =>
            exact Or.inl (by rw [hM2fs, hRfs, hMfs])
          next resPair heqRC =>
            split
            next name heqTz =>
              refine Or.inl ?_
              dsimp only
              rw [fsUpdate_ne _ _ hzp_mp, hM2fs, hRfs, hMfs]
            next heqTz =>
              refine Or.inr ⟨rfl, _, ?_, heqTz⟩
              rcases resPair with _ | ⟨rp2, c2⟩
              · dsimp only
                rw [fsUpdate_ne _ _ hzp_mp, fsUpdate_self]
              · dsimp only
                rcases hresP : resP with _ | rp
                · rw [hresP] at heqRC
                  simp at heqRC
                · rw [hresP] at heqRC heqr
                  dsimp only at heqRC
                  rcases hfd : M2.fs rp with _ | (c | z3)
                  all_goals rw [hfd] at heqRC
                  · simp at heqRC
                  · have hinj : rp = rp2 ∧ c = c2 := by
                      simpa using heqRC
                    obtain ⟨s, hs⟩ :=
                      downloadBestResource_result _ _ _ _ _ _ _ _ rp
                        (by rw [← hR]; exact heqr)
                    have hzp_rp : filePref ++ ".zip" ≠ rp2 := by
                      rw [← hinj.1, hs]
                      exact ne_of_not_pref hpref _
                    rw [fsUpdate_ne _ _ hzp_rp, fsUpdate_ne _ _ hzp_mp,
                      fsUpdate_self]
                  · simp at heqRC
        next heqz =>
          exact Or.inl (by rw [hM2fs, hRfs, hMfs])
    next hnone =>
      exact Or.inl (by rw [hM2fs, hRfs, hMfs])
  next hcond =>
    simp only [if_neg hcond]
    dsimp only at heqm2 ⊢
    have hmetaP : metaP = metaP2 := by simpa using heqm2
    subst hmetaP
    split
    next hsome =>
      split
      next hm2n =>
        exact Or.inl (by rw [hRfs, hMfs])
      next metaPath =>
        have hmp : metaPath = ("tmp-" ++ oid) ++ ".zip" :=
          downloadMetaZip_result _ _ _ _ _ _ _ _ (by rw [← hM]; exact heqm)
        have hzp_mp : filePref ++ ".zip" ≠ metaPath := by
          rw [hmp]
          exact hne1
        split
        next z heqz =>
          split
          next e heqRC =>
            exact Or.inl (by rw [hRfs, hMfs])
          next resPair heqRC =>
            split
            next name heqTz =>
              refine Or.inl ?_
              dsimp only
              rw [fsUpdate_ne _ _ hzp_mp, hRfs, hMfs]
            next heqTz =>
              refine Or.inr ⟨rfl, _, ?_, heqTz⟩
              rcases resPair with _ | ⟨rp2, c2⟩
              · dsimp only
                rw [fsUpdate_ne _ _ hzp_mp, fsUpdate_self]
              · dsimp only
                rcases hresP : resP with _ | rp
                · rw [hresP] at heqRC
                  simp at heqRC
                · rw [hresP] at heqRC heqr
                  dsimp only at heqRC
                  rcases hfd : R.fs rp with _ | (c | z3)
                  all_goals rw [hfd] at heqRC
                  · simp at heqRC
                  · have hinj : rp = rp2 ∧ c = c2 := by
                      simpa using heqRC
                    obtain ⟨s, hs⟩ :=
                      downloadBestResource_result _ _ _ _ _ _ _ _ rp
                        (by rw [← hR]; exact heqr)
                    have hzp_rp : filePref ++ ".zip" ≠ rp2 := by
                      rw [← hinj.1, hs]
                      exact ne_of_not_pref hpref _
                    rw [fsUpdate_ne _ _ hzp_rp, fsUpdate_ne _ _ hzp_mp,
                      fsUpdate_self]
                  · simp at heqRC
        next heqz =>
          exact Or.inl (by rw [hRfs, hMfs])
    next hnone =>
      exact Or.inl (by rw [hRfs, hMfs])

/-- C7: if `backup_media` raises during fetching or composing — including when
the post-compose integrity self-test reports a corrupt entry — before the
rename step, then the pre-existing archive file at the destination path (if
any) is unchanged; and whatever zip container is newly present at the
destination after a run passed the integrity self-test: the freshly composed
container is renamed over the destination only after `testzip` reports no
corrupt entry, as the last step touching that path. -/
theorem backup_media_atomic_commit (remote : Remote) (fail : Nat → Bool)
    (oid filePref : String) (shouldBePlayable : Bool) (fs : FS)
    (hpref : strIsPref ("tmp-" ++ oid) (filePref ++ ".zip") = false) :
    ((∃ e, (backupMedia remote fail oid filePref shouldBePlayable fs).result
        = .error e) →
      (backupMedia remote fail oid filePref shouldBePlayable fs).fs
        (filePref ++ ".zip") = fs (filePref ++ ".zip"))
    ∧ (∀ z2, (backupMedia remote fail oid filePref shouldBePlayable fs).fs
          (filePref ++ ".zip") = some (.zip z2) →
        fs (filePref ++ ".zip") = some (.zip z2) ∨ testzip z2 = none) := by
  have H := backupMedia_outcome remote fail oid filePref shouldBePlayable fs
    hpref
  constructor
  · rintro ⟨e, he⟩
    rcases H with h | ⟨hok, _⟩
    · exact h
    · rw [hok] at he
      exact absurd he (by simp)
  · intro z2 hz2
    rcases H with h | ⟨_, z3, hfs, htz⟩
    · exact Or.inl (by rw [← h]; exact hz2)
    · right
      rw [hfs] at hz2
      obtain rfl : z3 = z2 := by simpa using hz2
      exact htz

/-- Witness for `backup_media_atomic_commit`: a run whose very first network
call (`channels/path/`) raises leaves an empty filesystem untouched at the
destination path. -/
theorem backup_media_atomic_commit_witness :
    strIsPref ("tmp-" ++ "v123") ("My video - v123" ++ ".zip") = false
    ∧ (backupMedia ⟨[], ⟨[]⟩, none, [], [], none⟩ (fun _ => true) "v123"
        "My video - v123" false (fun _ => none)).fs ("My video - v123" ++ ".zip")
      = (fun _ => none : FS) ("My video - v123" ++ ".zip") := by
  refine ⟨by decide, ?_⟩
  exact (backup_media_atomic_commit ⟨[], ⟨[]⟩, none, [], [], none⟩
    (fun _ => true) "v123" "My video - v123" false (fun _ => none)
    (by decide)).1 ⟨.requestError 0, rfl⟩

/-! ## Helper lemmas for the no-op backup theorem (C8) -/

lemma str_ne_of_head {a b : String} (h : a.data.head? ≠ b.data.head?) :
    a ≠ b :=
  fun he => h (by rw [he])

lemma append_right_ne (a b c : String) (h : b.data.head? ≠ c.data.head?) :
    a ++ b ≠ a ++ c := by
  intro he
  apply h
  have hd : (a ++ b).data = (a ++ c).data := by rw [he]
  rw [String.data_append, String.data_append] at hd
  rw [List.append_cancel_left hd]

lemma strRemovePref_append (a b : String) : strRemovePref (a ++ b) a = b := by
  unfold strRemovePref
  rw [strIsPref_append]
  simp only [if_true]
  apply String.ext
  show ((a ++ b).data.drop a.data.length) = b.data
  rw [String.data_append, List.drop_left]

lemma testzip_append (l1 l2 : List ZipEntry) (h1 : testzip ⟨l1⟩ = none)
    (h2 : ∀ e ∈ l2, e.crcOk = true) : testzip ⟨l1 ++ l2⟩ = none := by
  unfold testzip at h1 ⊢
  rw [Option.map_eq_none'] at h1 ⊢
  rw [List.find?_append, h1]
  rw [Option.none_or]
  rw [List.find?_eq_none]
  intro e he
  simp [h2 e he]

lemma zipSize_pos (z : ZipArchive) (h : z.entries ≠ []) : 0 < zipSize z := by
  unfold zipSize
  cases hz : z.entries with
  | nil => exact absurd hz h
  | cons e t =>
    rw [List.map_cons, List.sum_cons]
    omega

lemma sizeCheckStep_self (n : Nat) :
    sizeCheckStep (n : Int) (some (natDigits n)) = .skip := by
  unfold sizeCheckStep
  rw [Option.some_bind, pyParseIntBytes_natDigits]
  simp

lemma foldlM_readMarkers_clean (l : List ZipEntry) (acc : Int × Nat)
    (hnames : ∀ e ∈ l, e.name ≠ "metadata-size.txt"
      ∧ strIsPref "resource-" e.name = false) :
    l.foldlM readMarkersStep acc = .ok acc := by
  induction l generalizing acc with
  | nil => rfl
  | cons e t ih =>
    rw [List.foldlM_cons]
    have he := hnames e (by simp)
    have hstep : readMarkersStep acc e = .ok acc := by
      unfold readMarkersStep
      rw [if_neg he.1, he.2]
      simp
    rw [hstep]
    show t.foldlM readMarkersStep acc = .ok acc
    exact ih _ (fun e' he' => hnames e' (by simp [he']))

lemma readMarkersStep_msize (acc : Int × Nat) (n : Nat) :
    readMarkersStep acc ⟨"metadata-size.txt", natDigits n, true⟩
      = .ok ((n : Int), acc.2) := by
  unfold readMarkersStep
  rw [if_pos rfl, pyParseIntBytes_natDigits]

lemma readMarkersStep_mpath (acc : Int × Nat) (d : List Nat) :
    readMarkersStep acc ⟨"metadata-path.txt", d, true⟩ = .ok acc := by
  unfold readMarkersStep
  dsimp only
  rw [if_neg (by decide), if_neg (by decide)]

lemma readMarkersStep_resource (acc : Int × Nat) (t : String) (c : List Nat) :
    readMarkersStep acc ⟨"resource-" ++ t, c, true⟩ = .ok (acc.1, c.length) := by
  unfold readMarkersStep
  dsimp only
  have hh : ("resource-" ++ t).data.head? = some 'r' := by
    rw [String.data_append]
    rfl
  rw [if_neg (str_ne_of_head (by rw [hh]; decide)),
    if_pos (strIsPref_append "resource-" t)]

/-- Markers read back from a freshly composed archive without a resource. -/
lemma readMarkers_compose_nores (l : List ZipEntry) (n : Nat) (d : List Nat)
    (hnames : ∀ e ∈ l, e.name ≠ "metadata-size.txt"
      ∧ strIsPref "resource-" e.name = false) :
    readMarkers ⟨l ++ [⟨"metadata-size.txt", natDigits n, true⟩,
      ⟨"metadata-path.txt", d, true⟩] ++ []⟩ = .ok ((n : Int), 0) := by
  unfold readMarkers
  show List.foldlM _ _ _ = _
  rw [List.append_nil, List.foldlM_append, foldlM_readMarkers_clean l _ hnames]
  show List.foldlM _ ((0 : Int), (0 : Nat)) _ = _
  rw [List.foldlM_cons, readMarkersStep_msize]
  show List.foldlM _ ((n : Int), (0 : Nat)) _ = _
  rw [List.foldlM_cons, readMarkersStep_mpath]
  rfl

/-- Markers read back from a freshly composed archive with a resource entry. -/
lemma readMarkers_compose_res (l : List ZipEntry) (n : Nat) (d : List Nat)
    (t : String) (c : List Nat)
    (hnames : ∀ e ∈ l, e.name ≠ "metadata-size.txt"
      ∧ strIsPref "resource-" e.name = false) :
    readMarkers ⟨l ++ [⟨"metadata-size.txt", natDigits n, true⟩,
      ⟨"metadata-path.txt", d, true⟩] ++ [⟨"resource-" ++ t, c, true⟩]⟩
      = .ok ((n : Int), c.length) := by
  unfold readMarkers
  show List.foldlM _ _ _ = _
  rw [List.foldlM_append, List.foldlM_append, foldlM_readMarkers_clean l _ hnames]
  show List.foldlM _ ((0 : Int), (0 : Nat)) _ >>= _ = _
  rw [List.foldlM_cons, readMarkersStep_msize]
  show (List.foldlM _ ((n : Int), (0 : Nat)) _ >>= _) = _
  rw [List.foldlM_cons, readMarkersStep_mpath]
  show List.foldlM _ ((n : Int), (0 : Nat)) _ = _
  rw [List.foldlM_cons, readMarkersStep_resource]
  rfl

/-- Metadata download with `current_size = 0` and no failure: downloads and
writes the remote metadata zip and returns its path. -/
lemma downloadMetaZip_dl (remote : Remote) (fail : Nat → Bool)
    (oid filePref : String) (fs : FS) (calls : Nat)
    (hoid : oid ≠ "") (hf : fail calls = false)
    (hcrc : testzip remote.metaZip = none) :
    downloadMetaZip remote fail oid filePref 0 fs calls
      = ⟨fsUpdate fs (filePref ++ ".zip") (some (.zip remote.metaZip)),
          calls + 1, .ok (some (filePref ++ ".zip"))⟩ := by
  unfold downloadMetaZip
  rw [if_neg hoid]
  dsimp only
  rw [if_neg (by norm_num), hf, hcrc]
  rfl

/-- Metadata download that skips: nonzero `current_size` matching the HEAD
probe. -/
lemma downloadMetaZip_skip (remote : Remote) (fail : Nat → Bool)
    (oid filePref : String) (cs : Int) (fs : FS) (calls : Nat)
    (hoid : oid ≠ "") (hf : fail calls = false) (hcs : cs ≠ 0)
    (hskip : sizeCheckStep cs remote.metaHead = .skip) :
    downloadMetaZip remote fail oid filePref cs fs calls
      = ⟨fs, calls + 1, .ok none⟩ := by
  unfold downloadMetaZip
  rw [if_neg hoid]
  dsimp only
  rw [if_pos hcs, hf, hskip]
  rfl

/-- Resource download returns `none` without touching the filesystem when the
item is not a video or has no listed resources. -/
lemma downloadBestResource_none (remote : Remote) (fail : Nat → Bool)
    (oid filePref : String) (cs : Int) (playable : Bool) (fs : FS) (calls : Nat)
    (hoid : oid ≠ "") (hfail : ∀ k, fail k = false)
    (hcase : oid.data.head? ≠ some 'v' ∨ remote.resources = []) :
    ∃ c, downloadBestResource remote fail oid filePref cs playable fs calls
      = ⟨fs, c, .ok none⟩ := by
  unfold downloadBestResource
  rw [if_neg hoid]
  by_cases hv : oid.data.head? ≠ some 'v'
  · exact ⟨calls, by rw [if_pos hv]⟩
  · have h : remote.resources = [] := by
      rcases hcase with h | h
      · exact absurd h hv
      · exact h
    refine ⟨calls + 1, ?_⟩
    rw [if_neg hv, hfail calls, if_neg (by simp), if_pos h]

/-- Resource download with `current_size = 0` and no failure: writes the best
variant's bytes (the pointer text for embed/youtube, the streamed body
otherwise) and returns its path. -/
lemma downloadBestResource_write (remote : Remote) (fail : Nat → Bool)
    (oid filePref : String) (playable : Bool) (fs : FS) (calls : Nat)
    (hoid : oid ≠ "") (hv : oid.data.head? = some 'v')
    (hfail : ∀ k, fail k = false) (hres : remote.resources ≠ [])
    (best : Resource)
    (hsel : selectBestQuality playable remote.resources = some best) :
    ∃ c, downloadBestResource remote fail oid filePref 0 playable fs calls
      = ⟨fsUpdate fs (resPathName filePref best)
          (some (.bytes (if best.format = "youtube" ∨ best.format = "embed"
            then best.file.data.map Char.toNat else remote.resourceBytes))),
        c, .ok (some (resPathName filePref best))⟩ := by
  unfold downloadBestResource
  rw [if_neg hoid, if_neg (by simp [hv]), hfail calls, if_neg (by simp),
    if_neg hres, hsel]
  dsimp only
  by_cases hemb : best.format = "youtube" ∨ best.format = "embed"
  · refine ⟨calls + 1, ?_⟩
    rw [if_pos hemb, if_neg (by norm_num), if_pos hemb]
  · refine ⟨calls + 3, ?_⟩
    rw [if_neg hemb, hfail (calls + 1), if_neg (by simp),
      if_neg (by norm_num), hfail (calls + 2), if_neg (by simp),
      if_neg hemb]

/-- Resource download that skips: the recorded size matches the remote
variant (pointer length for embed/youtube, HEAD probe otherwise). -/
lemma downloadBestResource_skip (remote : Remote) (fail : Nat → Bool)
    (oid filePref : String) (cs : Int) (playable : Bool) (fs : FS) (calls : Nat)
    (hoid : oid ≠ "") (hv : oid.data.head? = some 'v')
    (hfail : ∀ k, fail k = false) (hres : remote.resources ≠ [])
    (best : Resource)
    (hsel : selectBestQuality playable remote.resources = some best)
    (hcs : cs ≠ 0)
    (hskip : if best.format = "youtube" ∨ best.format = "embed"
      then cs = ((best.file.data.map Char.toNat).length : Int)
      else sizeCheckStep cs remote.resHead = .skip) :
    ∃ c, downloadBestResource remote fail oid filePref cs playable fs calls
      = ⟨fs, c, .ok none⟩ := by
  unfold downloadBestResource
  rw [if_neg hoid, if_neg (by simp [hv]), hfail calls, if_neg (by simp),
    if_neg hres, hsel]
  dsimp only
  by_cases hemb : best.format = "youtube" ∨ best.format = "embed"
  · rw [if_pos hemb] at hskip ⊢
    exact ⟨calls + 1, by rw [if_pos ⟨hcs, hskip⟩]⟩
  · rw [if_neg hemb] at hskip
    refine ⟨calls + 3, ?_⟩
    rw [if_neg hemb, hfail (calls + 1), if_neg (by simp),
      if_pos hcs, hfail (calls + 2), if_neg (by simp), hskip]

lemma head_append_dash (X : String) : ("-" ++ X).data.head? = some '-' := by
  rw [String.data_append]
  rfl

lemma head_dash5 (a b c d e : String) :
    ("-" ++ a ++ b ++ c ++ d ++ e).data.head? = some '-' := by
  simp only [String.data_append]
  rfl

lemma resource_name_eq (X : String) :
    "resource" ++ ("-" ++ X) = "resource-" ++ X := by
  rw [← String.append_assoc,
    show ("resource" ++ "-" : String) = "resource-" from by decide]

/-- `download_media_best_resource` never touches a `{filePref}.zip` file: its
own writes go to `{filePref}-...` names. -/
lemma downloadBestResource_pres_zipname (remote : Remote) (fail : Nat → Bool)
    (oid filePref : String) (currentSize : Int) (shouldBePlayable : Bool)
    (fs : FS) (calls : Nat) :
    (downloadBestResource remote fail oid filePref currentSize shouldBePlayable
      fs calls).fs (filePref ++ ".zip") = fs (filePref ++ ".zip") := by
  unfold downloadBestResource
  dsimp only
  repeat' split
  all_goals first
    | rfl
    | exact fsUpdate_ne fs _ (by
        unfold resPathName
        exact append_right_ne _ _ _ (by rw [head_dash5]; decide))

/-- A successful non-skipped `download_media_metadata_zip` wrote exactly the
remote metadata zip at the returned path. -/
lemma downloadMetaZip_written (remote : Remote) (fail : Nat → Bool)
    (oid filePref : String) (currentSize : Int) (fs : FS) (calls : Nat) :
    ∀ p, (downloadMetaZip remote fail oid filePref currentSize fs calls).result
      = .ok (some p) →
    (downloadMetaZip remote fail oid filePref currentSize fs calls).fs p
      = some (.zip remote.metaZip) := by
  intro p hp
  unfold downloadMetaZip at hp ⊢
  dsimp only at hp ⊢
  repeat' split at hp
  all_goals simp_all
  all_goals exact fsUpdate_self _ _ _

/-- With `current_size = 0` the resource download returns `none` only when the
item is not a video or has no resources (the skip branches need a nonzero
size). -/
lemma downloadBestResource_none_inv (remote : Remote) (fail : Nat → Bool)
    (oid filePref : String) (shouldBePlayable : Bool) (fs : FS) (calls : Nat)
    (h : (downloadBestResource remote fail oid filePref 0 shouldBePlayable
      fs calls).result = .ok none) :
    oid.data.head? ≠ some 'v' ∨ remote.resources = [] := by
  unfold downloadBestResource at h
  dsimp only at h
  repeat' split at h
  all_goals simp_all

/-- Resource download when the selection finds no eligible variant: the
`RuntimeError` at download.py:154. -/
lemma downloadBestResource_selnone (remote : Remote) (fail : Nat → Bool)
    (oid filePref : String) (cs : Int) (playable : Bool) (fs : FS) (calls : Nat)
    (hoid : oid ≠ "") (hv : oid.data.head? = some 'v')
    (hfail : ∀ k, fail k = false) (hres : remote.resources ≠ [])
    (hsel : selectBestQuality playable remote.resources = none) :
    downloadBestResource remote fail oid filePref cs playable fs calls
      = ⟨fs, calls + 1, .error .noResource⟩ := by
  unfold downloadBestResource
  rw [if_neg hoid, if_neg (by simp [hv]), hfail calls, if_neg (by simp),
    if_neg hres, hsel]

/-- With `current_size = 0` a successful resource download returns the path of
the selected best variant and wrote its bytes there. -/
lemma downloadBestResource_ok_some (remote : Remote) (fail : Nat → Bool)
    (oid filePref : String) (shouldBePlayable : Bool) (fs : FS) (calls : Nat)
    (hfail : ∀ k, fail k = false) :
    ∀ p, (downloadBestResource remote fail oid filePref 0 shouldBePlayable
      fs calls).result = .ok (some p) →
    ∃ best, selectBestQuality shouldBePlayable remote.resources = some best
      ∧ p = resPathName filePref best
      ∧ oid.data.head? = some 'v'
      ∧ remote.resources ≠ []
      ∧ (downloadBestResource remote fail oid filePref 0 shouldBePlayable
          fs calls).fs p
        = some (.bytes (if best.format = "youtube" ∨ best.format = "embed"
            then best.file.data.map Char.toNat else remote.resourceBytes)) := by
  intro p hp
  by_cases hoid : oid = ""
  · unfold downloadBestResource at hp
    rw [if_pos hoid] at hp
    simp at hp
  by_cases hv : oid.data.head? = some 'v'
  swap
  · obtain ⟨c, hn⟩ := downloadBestResource_none remote fail oid filePref 0
      shouldBePlayable fs calls hoid hfail (Or.inl hv)
    rw [hn] at hp
    simp at hp
  by_cases hres : remote.resources = []
  · obtain ⟨c, hn⟩ := downloadBestResource_none remote fail oid filePref 0
      shouldBePlayable fs calls hoid hfail (Or.inr hres)
    rw [hn] at hp
    simp at hp
  rcases hsel : selectBestQuality shouldBePlayable remote.resources
    with _ | best
  · rw [downloadBestResource_selnone remote fail oid filePref 0
      shouldBePlayable fs calls hoid hv hfail hres hsel] at hp
    simp at hp
  obtain ⟨c, hw⟩ := downloadBestResource_write remote fail oid filePref
    shouldBePlayable fs calls hoid hv hfail hres best hsel
  rw [hw] at hp
  have hpp : resPathName filePref best = p := by simpa using hp
  refine ⟨best, rfl, hpp.symm, hv, hres, ?_⟩
  rw [hw]
  dsimp only
  rw [← hpp]
  exact fsUpdate_self _ _ _

lemma str_data_ne_nil {s : String} (h : s ≠ "") : s.data ≠ [] :=
  fun h0 => h (String.ext (by rw [h0]))

/-- Derived invariant: how the resource-entry length recovered from an archive
relates to the remote's current best variant (it is the byte length of
whatever the resource download would write). -/
def resLenSpec (remote : Remote) (oid : String) (playable : Bool)
    (rl : Nat) : Prop :=
  ((oid.data.head? ≠ some 'v' ∨ remote.resources = []) → rl = 0)
  ∧ (∀ best, oid.data.head? = some 'v' → remote.resources ≠ [] →
      selectBestQuality playable remote.resources = some best →
      rl = (if best.format = "youtube" ∨ best.format = "embed"
        then best.file.data.length else remote.resourceBytes.length))

/-- A `backup_media` run against an archive whose markers match the unchanged
remote is a no-op: both downloads skip, compose and commit are not executed,
and the filesystem is returned untouched. -/
lemma backupMedia_noop (remote : Remote) (fail : Nat → Bool)
    (oid filePref : String) (playable : Bool) (fsA : FS)
    (hfail : ∀ k, fail k = false) (hoid : oid ≠ "")
    (z : ZipArchive) (rl : Nat)
    (hfsA : fsA (filePref ++ ".zip") = some (.zip z))
    (hmk : readMarkers z = .ok ((zipSize remote.metaZip : Int), rl))
    (hmetaNE : remote.metaZip.entries ≠ [])
    (hmetaHead : remote.metaHead = some (natDigits (zipSize remote.metaZip)))
    (hrl : resLenSpec remote oid playable rl)
    (hvid : oid.data.head? = some 'v' → remote.resources ≠ [] →
      ∀ best, selectBestQuality playable remote.resources = some best →
        (best.format = "youtube" ∨ best.format = "embed" → best.file ≠ "")
        ∧ (¬(best.format = "youtube" ∨ best.format = "embed") →
            remote.resourceBytes ≠ []
            ∧ remote.resHead = some (natDigits remote.resourceBytes.length)))
    (hselsome : oid.data.head? = some 'v' → remote.resources ≠ [] →
      selectBestQuality playable remote.resources ≠ none) :
    ∃ c, backupMedia remote fail oid filePref playable fsA
      = ⟨fsA, c, .ok (filePref ++ ".zip")⟩ := by
  have hzs : (zipSize remote.metaZip : Int) ≠ 0 := by
    have := zipSize_pos remote.metaZip hmetaNE
    simp only [ne_eq, Int.natCast_eq_zero]
    omega
  have hms : downloadMetaZip remote fail oid ("tmp-" ++ oid)
      (zipSize remote.metaZip : Int) fsA 1 = ⟨fsA, 2, .ok none⟩ :=
    downloadMetaZip_skip remote fail oid _ _ fsA 1 hoid (hfail 1) hzs
      (by rw [hmetaHead]; exact sizeCheckStep_self _)
  have hr : ∃ c, downloadBestResource remote fail oid ("tmp-" ++ oid)
      (rl : Int) playable fsA 2 = ⟨fsA, c, .ok none⟩ := by
    by_cases hv : oid.data.head? = some 'v'
    · by_cases hres : remote.resources = []
      · exact downloadBestResource_none remote fail oid _ _ playable fsA 2
          hoid hfail (Or.inr hres)
      · rcases hselcase : selectBestQuality playable remote.resources
          with _ | best
        · exact absurd hselcase (hselsome hv hres)
        · have hbest := hvid hv hres best hselcase
          have hrlv := hrl.2 best hv hres hselcase
          by_cases hemb : best.format = "youtube" ∨ best.format = "embed"
          · have hfile := str_data_ne_nil (hbest.1 hemb)
            have hrl0 : (rl : Int) ≠ 0 := by
              rw [hrlv, if_pos hemb]
              simp only [ne_eq, Int.natCast_eq_zero, List.length_eq_zero]
              exact hfile
            refine downloadBestResource_skip remote fail oid _ _ playable fsA 2
              hoid hv hfail hres best hselcase hrl0 ?_
            rw [if_pos hemb, hrlv, if_pos hemb]
            norm_num
          · have hbytes := (hbest.2 hemb).1
            have hhead := (hbest.2 hemb).2
            have hrl0 : (rl : Int) ≠ 0 := by
              rw [hrlv, if_neg hemb]
              simp only [ne_eq, Int.natCast_eq_zero, List.length_eq_zero]
              exact hbytes
            refine downloadBestResource_skip remote fail oid _ _ playable fsA 2
              hoid hv hfail hres best hselcase hrl0 ?_
            rw [if_neg hemb, hrlv, if_neg hemb, hhead]
            exact sizeCheckStep_self _
    · exact downloadBestResource_none remote fail oid _ _ playable fsA 2
        hoid hfail (Or.inl hv)
  obtain ⟨cR, hr⟩ := hr
  refine ⟨cR, ?_⟩
  unfold backupMedia
  rw [if_neg hoid, hfail 0, if_neg (by simp)]
  dsimp only
  rw [hfsA]
  dsimp only
  rw [hmk]
  dsimp only
  rw [hms]
  dsimp only
  simp only [Option.isSome_none, Bool.false_eq_true, if_false]
  rw [hr]
  dsimp only
  rw [if_neg (by simp)]
  dsimp only
  rw [if_neg (by simp)]

lemma resource_name5 (a b c d e : String) :
    "resource" ++ ("-" ++ a ++ b ++ c ++ d ++ e)
      = "resource-" ++ (a ++ b ++ c ++ d ++ e) := by
  simp only [← String.append_assoc]
  rw [show ("resource" ++ "-" : String) = "resource-" from by decide]

/-- A successful fresh `backup_media` run leaves at the destination a zip
archive whose markers record the remote metadata size and the length of the
written resource bytes. -/
lemma backupMedia_run1_inv (remote : Remote) (fail : Nat → Bool)
    (oid filePref : String) (playable : Bool) (fs0 : FS)
    (hfail : ∀ k, fail k = false) (hoid : oid ≠ "")
    (hpref : strIsPref ("tmp-" ++ oid) (filePref ++ ".zip") = false)
    (hfresh : fs0 (filePref ++ ".zip") = none)
    (hcrc : testzip remote.metaZip = none)
    (hnames : ∀ e ∈ remote.metaZip.entries,
      e.name ≠ "metadata-size.txt" ∧ strIsPref "resource-" e.name = false)
    (hok : (backupMedia remote fail oid filePref playable fs0).result
      = .ok (filePref ++ ".zip")) :
    ∃ z rl,
      (backupMedia remote fail oid filePref playable fs0).fs
        (filePref ++ ".zip") = some (.zip z)
      ∧ readMarkers z = .ok ((zipSize remote.metaZip : Int), rl)
      ∧ (oid.data.head? = some 'v' → remote.resources ≠ [] →
          selectBestQuality playable remote.resources ≠ none)
      ∧ resLenSpec remote oid playable rl := by
  have hne1 : filePref ++ ".zip" ≠ ("tmp-" ++ oid) ++ ".zip" :=
    ne_of_not_pref hpref ".zip"
  have hm1 : downloadMetaZip remote fail oid ("tmp-" ++ oid) 0 fs0 1
      = ⟨fsUpdate fs0 (("tmp-" ++ oid) ++ ".zip")
          (some (.zip remote.metaZip)), 2,
         .ok (some (("tmp-" ++ oid) ++ ".zip"))⟩ :=
    downloadMetaZip_dl remote fail oid _ fs0 1 hoid (hfail 1) hcrc
  unfold backupMedia at hok ⊢
  rw [if_neg hoid, hfail 0, if_neg (by simp)] at hok ⊢
  dsimp only at hok ⊢
  rw [hfresh] at hok ⊢
  dsimp only at hok ⊢
  rw [hm1] at hok ⊢
  dsimp only at hok ⊢
  simp only [Option.isSome_some, if_true] at hok ⊢
  set fsm := fsUpdate fs0 (("tmp-" ++ oid) ++ ".zip")
    (some (.zip remote.metaZip)) with hfsm
  set R := downloadBestResource remote fail oid ("tmp-" ++ oid) 0 playable
    fsm 2 with hR
  have hRmt : R.fs (("tmp-" ++ oid) ++ ".zip") = some (.zip remote.metaZip) := by
    rw [hR, downloadBestResource_pres_zipname, hfsm]
    exact fsUpdate_self _ _ _
  rcases hRres : R.result with e | resP
  · rw [hRres] at hok
    dsimp only at hok
    exact absurd hok (by simp)
  rw [hRres] at hok
  dsimp only at hok ⊢
  rw [if_neg (by simp)] at hok ⊢
  dsimp only at hok ⊢
  simp only [Option.isSome_some, eq_self_iff_true, or_true, if_true] at hok ⊢
  rw [hRmt] at hok ⊢
  dsimp only at hok ⊢
  rw [hR] at hRres
  rcases resP with _ | rp
  · dsimp only at hok ⊢
    have hinv := downloadBestResource_none_inv remote fail oid ("tmp-" ++ oid)
      playable fsm 2 hRres
    rw [testzip_append _ _ (testzip_append _ _ hcrc (by
        intro e he
        simp only [List.mem_cons, List.not_mem_nil, or_false] at he
        rcases he with rfl | rfl <;> rfl)) (by
        intro e he
        simp only [List.not_mem_nil] at he)] at hok ⊢
    dsimp only at hok ⊢
    refine ⟨_, 0, by rw [fsUpdate_ne _ _ hne1]; exact fsUpdate_self _ _ _,
      ?_, ?_, ?_, ?_⟩
    · exact readMarkers_compose_nores _ _ _ hnames
    · intro hv hres
      rcases hinv with h | h
      · exact absurd hv h
      · exact absurd h hres
    · exact fun _ => rfl
    · intro best hv hres hsel
      rcases hinv with h | h
      · exact absurd hv h
      · exact absurd h hres
  · dsimp only at hok ⊢
    obtain ⟨best, hsel, hrpeq, hv, hres, hwrote⟩ :=
      downloadBestResource_ok_some remote fail oid ("tmp-" ++ oid) playable
        fsm 2 hfail rp hRres
    rw [← hR] at hwrote
    rw [hwrote] at hok ⊢
    dsimp only at hok ⊢
    have hname : ("resource" ++ strRemovePref rp ("tmp-" ++ oid) : String)
        = "resource-" ++ (toString best.width ++ "x" ++ toString best.height
          ++ "." ++ best.format) := by
      rw [hrpeq]
      unfold resPathName
      rw [strRemovePref_append]
      exact resource_name5 _ _ _ _ _
    rw [hname] at hok ⊢
    rw [testzip_append _ _ (testzip_append _ _ hcrc (by
        intro e he
        simp only [List.mem_cons, List.not_mem_nil, or_false] at he
        rcases he with rfl | rfl <;> rfl)) (by
        intro e he
        simp only [List.mem_cons, List.not_mem_nil, or_false] at he
        rw [he])] at hok ⊢
    dsimp only at hok ⊢
    have hzprp : filePref ++ ".zip" ≠ rp := by
      rw [hrpeq]
      unfold resPathName
      exact ne_of_not_pref hpref _
    refine ⟨_, (if best.format = "youtube" ∨ best.format = "embed"
      then best.file.data.map Char.toNat else remote.resourceBytes).length,
      by rw [fsUpdate_ne _ _ hzprp, fsUpdate_ne _ _ hne1]; exact fsUpdate_self _ _ _,
      ?_, ?_, ?_, ?_⟩
    · exact readMarkers_compose_res _ _ _ _ _ hnames
    · intro _ _
      rw [hsel]
      simp
    · intro h
      rcases h with h | h
      · exact absurd hv h
      · exact absurd h hres
    · intro best2 hv2 hres2 hsel2
      have hb : best2 = best := by
        rw [hsel] at hsel2
        exact (Option.some.inj hsel2).symm
      subst hb
      by_cases hemb : best2.format = "youtube" ∨ best2.format = "embed"
      · rw [if_pos hemb, if_pos hemb, List.length_map]
      · rw [if_neg hemb, if_neg hemb]

/-- C8: running `backup_media` twice against an unchanged remote item is
idempotent: after a successful first run, the markers recovered from the
created archive match the remote sizes (metadata zip size and the byte length
of the best resource as currently written), and the second run skips both
downloads, compose and commit, returning the exact same filesystem — the
archive is byte-for-byte unchanged and no temporary file artifact is
created. -/
theorem backup_media_idempotent (remote : Remote) (fail : Nat → Bool)
    (oid filePref : String) (playable : Bool) (fs0 : FS)
    (hfail : ∀ k, fail k = false) (hoid : oid ≠ "")
    (hpref : strIsPref ("tmp-" ++ oid) (filePref ++ ".zip") = false)
    (hfresh : fs0 (filePref ++ ".zip") = none)
    (hcrc : testzip remote.metaZip = none)
    (hmetaNE : remote.metaZip.entries ≠ [])
    (hmetaHead : remote.metaHead = some (natDigits (zipSize remote.metaZip)))
    (hnames : ∀ e ∈ remote.metaZip.entries,
      e.name ≠ "metadata-size.txt" ∧ strIsPref "resource-" e.name = false)
    (hvid : oid.data.head? = some 'v' → remote.resources ≠ [] →
      ∀ best, selectBestQuality playable remote.resources = some best →
        (best.format = "youtube" ∨ best.format = "embed" → best.file ≠ "")
        ∧ (¬(best.format = "youtube" ∨ best.format = "embed") →
            remote.resourceBytes ≠ []
            ∧ remote.resHead = some (natDigits remote.resourceBytes.length)))
    (hok : (backupMedia remote fail oid filePref playable fs0).result
      = .ok (filePref ++ ".zip")) :
    ∃ z rl c,
      (backupMedia remote fail oid filePref playable fs0).fs
        (filePref ++ ".zip") = some (.zip z)
      ∧ readMarkers z = .ok ((zipSize remote.metaZip : Int), rl)
      ∧ resLenSpec remote oid playable rl
      ∧ backupMedia remote fail oid filePref playable
          (backupMedia remote fail oid filePref playable fs0).fs
        = ⟨(backupMedia remote fail oid filePref playable fs0).fs, c,
           .ok (filePref ++ ".zip")⟩ := by
  obtain ⟨z, rl, hz, hmk, hsels, hrl⟩ := backupMedia_run1_inv remote fail oid
    filePref playable fs0 hfail hoid hpref hfresh hcrc hnames hok
  obtain ⟨c, hnoop⟩ := backupMedia_noop remote fail oid filePref playable
    (backupMedia remote fail oid filePref playable fs0).fs hfail hoid z rl
    hz hmk hmetaNE hmetaHead hrl hvid hsels
  exact ⟨z, rl, c, hz, hmk, hrl, hnoop⟩

def wRemote : Remote :=
  { channels := ["Main"]
    metaZip := ⟨[⟨"meta.json", [123, 125], true⟩]⟩
    metaHead := some (natDigits (zipSize ⟨[⟨"meta.json", [123, 125], true⟩]⟩))
    resources := []
    resourceBytes := []
    resHead := none }

theorem backup_media_idempotent_witness :
    ∃ z rl c,
      (backupMedia wRemote (fun _ => false) "x123" "My doc - x123" false
        (fun _ => none)).fs ("My doc - x123" ++ ".zip") = some (.zip z)
      ∧ readMarkers z = .ok ((zipSize wRemote.metaZip : Int), rl)
      ∧ resLenSpec wRemote "x123" false rl
      ∧ backupMedia wRemote (fun _ => false) "x123" "My doc - x123" false
          (backupMedia wRemote (fun _ => false) "x123" "My doc - x123" false
            (fun _ => none)).fs
        = ⟨(backupMedia wRemote (fun _ => false) "x123" "My doc - x123" false
            (fun _ => none)).fs, c,
           .ok ("My doc - x123" ++ ".zip")⟩ :=
  backup_media_idempotent wRemote (fun _ => false) "x123" "My doc - x123"
    false (fun _ => none) (fun _ => rfl) (by decide) (by decide) rfl rfl
    (by simp [wRemote]) rfl (by decide) (fun h => absurd h (by decide)) rfl

end MsClient
